import Mathlib

/-!
Verification of the DuReader batch pipeline (`src/utils/dataset.py`).

This file is a shallow embedding of the `BRCDataset` class from
`src/utils/dataset.py`.  Python lists become Lean `List`s, Python ints become
`Int`/`Nat` (lengths and counts are `Nat`, record payloads are `Int`), and
every Python operation that can raise (`max` of an empty sequence, list
indexing, dict field access, writing to a closed file, the `assert` in
`_load_dataset`) is modelled in the `Except String` monad, with the error
string recording the Python exception it stands for.

Modelling notes, each tied to the source:
* JSON records are taken as already parsed (`Sample`); line handling
  (skipping lines without a brace, `json.loads`) is upstream of every claim.
* Only the `answer_labels` field is modelled as possibly missing
  (`Option`), because reading it is the one dict access the claims exercise
  on records that may lack it (test-time records, line 205); all other
  fields are present in every record the claims quantify over.
* `best_match_scores` are Python floats; the code only copies them and
  compares nothing, so they are embedded as `Int` (any type with a `0`
  literal would do, no float arithmetic ever happens).
* The rejected-sample sink (`self.badcase_dumper`) is explicit state
  (`SinkState`): `__init__` opens it, `write`/`flush` require it open,
  `close` is idempotent, exactly as Python file objects behave.
-/

set_option maxRecDepth 4000

/-- Python `max(l)` for a list of naturals: raises `ValueError` on an empty
sequence (line 202, 205, 269, 270 of the source). -/
def pyMax (l : List Nat) : Except String Nat :=
  match l with
  | [] => .error "ValueError: max() arg is an empty sequence"
  | x :: xs => .ok (xs.foldl max x)

/-- Python list indexing `l[i]` for a non-negative index: raises `IndexError`
when out of range. -/
def pyGet {α : Type} (l : List α) (i : Nat) : Except String α :=
  match l.get? i with
  | some v => .ok v
  | none => .error "IndexError: list index out of range"

/-- Python dict access `sample['answer_labels']`: raises `KeyError` when the
record lacks the field. -/
def pyField (o : Option (List (Int × Int))) : Except String (List (Int × Int)) :=
  match o with
  | none => .error "KeyError: answer_labels"
  | some l => .ok l

/-- Monadic map over `Except String`, mirroring how a Python loop or list
comprehension stops at the first raised exception. -/
def eMapM {α β : Type} (f : α → Except String β) : List α → Except String (List β)
  | [] => .ok []
  | a :: as =>
    match f a with
    | .error e => .error e
    | .ok b =>
      match eMapM f as with
      | .error e => .error e
      | .ok bs => .ok (b :: bs)

/-- One entry of `sample['documents']` (source lines 209-221). -/
structure Document where
  segmented_passage : List String
  passage_token_ids : List Int
  is_selected : Bool
  pos_passage : List Int
  keyword_passage : List Int
deriving DecidableEq, Repr, Inhabited

/-- One parsed record of the dataset (the `sample` dict of the source).
`answer_labels` is `Option` because test records may lack it (see module
docstring); `error_info` is the annotation added to rejected records. -/
structure Sample where
  segmented_question : List String
  documents : List Document
  fake_answers : List String
  answer_labels : Option (List (Int × Int))
  best_match_doc_ids : List Int
  best_match_scores : List Int
  question_token_ids : List Int
  pos_question : List Int
  keyword_question : List Int
  error_info : Option String
deriving DecidableEq, Repr, Inhabited

/-- The keep-condition of the training filter: the negation of the skip test
`answer_label[0] == -1 or answer_label[1] == -1` (source line 78). -/
def keepLab (p : Int × Int) : Bool :=
  !(p.1 == -1 || p.2 == -1)

/-- The filtering loop of `_load_dataset` (source lines 77-84): walks the
enumerated `answer_labels` and, for every non-skipped index, appends the
same-indexed entries of the three parallel sequences. -/
def filterLoop (ds ss : List Int) (fs : List String) :
    List (Nat × (Int × Int)) →
      Except String (List Int × List Int × List (Int × Int) × List String)
  | [] => .ok ([], [], [], [])
  | (i, lab) :: rest =>
    if lab.1 = -1 ∨ lab.2 = -1 then
      filterLoop ds ss fs rest
    else
      match pyGet ds i with
      | .error e => .error e
      | .ok d =>
        match pyGet ss i with
        | .error e => .error e
        | .ok sc =>
          match pyGet fs i with
          | .error e => .error e
          | .ok fa =>
            match filterLoop ds ss fs rest with
            | .error e => .error e
            | .ok (rds, rss, rls, rfs) => .ok (d :: rds, sc :: rss, lab :: rls, fa :: rfs)

/-- The per-record training-mode cleaning of `_load_dataset` (source lines
66-93).  Returns the (possibly annotated or field-replaced) record together
with the `bad_case_sample` flag. -/
def cleanTrainSample (s : Sample) : Except String (Sample × Bool) :=
  if s.segmented_question.length = 0 ∨ s.documents.length = 0 then
    .ok ({ s with error_info := some "empty_question" }, true)
  else if s.fake_answers.length = 0 then
    .ok ({ s with error_info := some "empty_fake_answer" }, true)
  else
    match pyField s.answer_labels with
    | .error e => .error e
    | .ok labs =>
      match filterLoop s.best_match_doc_ids s.best_match_scores s.fake_answers labs.enum with
      | .error e => .error e
      | .ok (rds, rss, rls, rfs) =>
        if rds.length = 0 then
          .ok ({ s with error_info := some "empty_fake_answer" }, true)
        else
          .ok ({ s with
                  best_match_doc_ids := rds
                  best_match_scores := rss
                  answer_labels := some rls
                  fake_answers := rfs }, false)

/-- State of the rejected-sample sink (`self.badcase_dumper`).  `hasHandle`
says the attribute exists (the file was opened in `__init__`), `isOpen` that
the handle has not been closed, `contents` the records written so far. -/
structure SinkState where
  hasHandle : Bool
  isOpen : Bool
  contents : List Sample
deriving DecidableEq, Repr, Inhabited

/-- Python truthiness of `self.badcase_sample_log_file` (lines 30 and 102):
`None` and the empty string are falsy. -/
def truthyPath : Option String → Bool
  | none => false
  | some p => !(p == "")

/-- The sink part of `__init__` (source lines 30-31): a truthy
`badcase_sample_log_file` opens the dump file once, at construction. -/
def initSink (cfgPath : Option String) : SinkState :=
  if truthyPath cfgPath then ⟨true, true, []⟩ else ⟨false, false, []⟩

/-- `self.badcase_dumper.write(...)` (source line 97): `AttributeError` if the
attribute was never created, `ValueError` if the file has been closed. -/
def sinkWrite (st : SinkState) (s : Sample) : Except String SinkState :=
  if !st.hasHandle then .error "AttributeError: badcase_dumper"
  else if !st.isOpen then .error "ValueError: I/O operation on closed file"
  else .ok { st with contents := st.contents ++ [s] }

/-- `self.badcase_dumper.flush()` (source line 98). -/
def sinkFlush (st : SinkState) : Except String SinkState :=
  if !st.hasHandle then .error "AttributeError: badcase_dumper"
  else if !st.isOpen then .error "ValueError: I/O operation on closed file"
  else .ok st

/-- `self.badcase_dumper.close()` (source line 103): closing a closed Python
file object is a no-op. -/
def sinkClose (st : SinkState) : SinkState :=
  { st with isOpen := false }

/-- The record loop of `_load_dataset` (source lines 56-100): per record, in
training mode first the `assert` on the sink path (line 64), then cleaning;
bad records are written to the sink and flushed, good ones appended to the
accumulating data set.  Non-training records pass through unfiltered. -/
def loadLoop (cfgPath : Option String) (train : Bool) (acc : List Sample) (st : SinkState) :
    List Sample → Except String (List Sample × SinkState)
  | [] => .ok (acc, st)
  | s :: rest =>
    if train then
      if cfgPath = none then .error "AssertionError: badcase_sample_log_file is None"
      else
        match cleanTrainSample s with
        | .error e => .error e
        | .ok (s2, bad) =>
          if bad then
            match sinkWrite st s2 with
            | .error e => .error e
            | .ok st2 =>
              match sinkFlush st2 with
              | .error e => .error e
              | .ok st3 => loadLoop cfgPath train acc st3 rest
          else loadLoop cfgPath train (acc ++ [s2]) st rest
    else loadLoop cfgPath train (acc ++ [s]) st rest

/-- `_load_dataset` (source lines 49-105): runs the record loop on one
source's records and, when the sink path is truthy, closes the sink at the
end of the call (lines 102-103), whether or not anything was written. -/
def load_dataset (cfgPath : Option String) (st : SinkState) (samples : List Sample)
    (train : Bool) : Except String (List Sample × SinkState) :=
  match loadLoop cfgPath train [] st samples with
  | .error e => .error e
  | .ok (ds, st2) =>
    if truthyPath cfgPath then .ok (ds, sinkClose st2) else .ok (ds, st2)

/-- The records of `samples` that a training-mode load accepts, in order,
with their filtered fields (the `else` branch of line 99-100). -/
def goodOf (samples : List Sample) : List Sample :=
  samples.filterMap (fun s =>
    match cleanTrainSample s with
    | .ok (s2, false) => some s2
    | _ => none)

/-- The records of `samples` that a training-mode load rejects, in order,
as written to the sink (annotated with `error_info`). -/
def badOf (samples : List Sample) : List Sample :=
  samples.filterMap (fun s =>
    match cleanTrainSample s with
    | .ok (s2, true) => some s2
    | _ => none)

/-- The dataset configuration consumed by batching (`max_p_num`, `max_p_len`,
`max_q_len` of `__init__`). -/
structure Config where
  max_p_num : Nat
  max_p_len : Nat
  max_q_len : Nat
deriving DecidableEq, Repr

/-- One flattened (record, passage-slot) row of a batch: the nine per-row
values appended in lockstep by the loop of `_one_mini_batch`
(source lines 207-234). -/
structure Row where
  q_ids : List Int
  q_len : Nat
  p_ids : List Int
  p_len : Nat
  pos_q : List Int
  key_q : List Int
  pos_p : List Int
  key_p : List Int
  sel : Int
deriving DecidableEq, Repr, Inhabited

/-- The batch dictionary built by `_one_mini_batch` (source lines 186-200). -/
structure BatchData where
  raw_data : List Sample
  question_token_ids : List (List Int)
  pos_questions : List (List Int)
  keyword_questions : List (List Int)
  question_length : List Nat
  passage_token_ids : List (List Int)
  pos_passages : List (List Int)
  keyword_passages : List (List Int)
  passage_length : List Nat
  start_ids : List (List Int)
  end_ids : List (List Int)
  is_selected : List Int
  match_scores : List (List Int)
deriving DecidableEq, Repr, Inhabited

/-- One iteration of the row loop (source lines 208-234): a real document
slot emits the record's question data and the document's passage data, with
`passage_length` capped at `max_p_len` (line 214) and `question_length` the
raw, uncapped question length (line 211); a slot beyond the record's document
count emits empty sequences and zero lengths. -/
def mkRow (cfg : Config) (is_testing : Bool) (s : Sample) (pidx : Nat) : Row :=
  if pidx < s.documents.length then
    let doc := s.documents.getD pidx default
    { q_ids := s.question_token_ids
      q_len := s.question_token_ids.length
      p_ids := doc.passage_token_ids
      p_len := min doc.passage_token_ids.length cfg.max_p_len
      pos_q := s.pos_question
      key_q := s.keyword_question
      pos_p := doc.pos_passage
      key_p := doc.keyword_passage
      sel := if is_testing then 0 else if doc.is_selected then 1 else 0 }
  else
    { q_ids := [], q_len := 0, p_ids := [], p_len := 0
      pos_q := [], key_q := [], pos_p := [], key_p := [], sel := 0 }

/-- All flattened rows of a batch: for each record in order, one row per
passage slot `0 .. maxP-1` (the nested loop of lines 207-234). -/
def batchRows (cfg : Config) (is_testing : Bool) (maxP : Nat) (samples : List Sample) :
    List Row :=
  (samples.map (fun s => (List.range maxP).map (mkRow cfg is_testing s))).flatten

/-- The batch dictionary as it stands after the row loop and before dynamic
padding: the per-row fields are the projections of the rows, the label fields
are still empty (lines 186-200 initialise them to `[]`). -/
def initBatch (samples : List Sample) (rows : List Row) : BatchData :=
  { raw_data := samples
    question_token_ids := rows.map Row.q_ids
    pos_questions := rows.map Row.pos_q
    keyword_questions := rows.map Row.key_q
    question_length := rows.map Row.q_len
    passage_token_ids := rows.map Row.p_ids
    pos_passages := rows.map Row.pos_p
    keyword_passages := rows.map Row.key_p
    passage_length := rows.map Row.p_len
    start_ids := []
    end_ids := []
    is_selected := rows.map Row.sel
    match_scores := [] }

/-- The per-sequence pad-or-truncate of `_dynamic_padding`
(source lines 271-278): extend with the pad value, then slice to the pad
length.  Python's negative list-repeat gives the empty list, which the `Nat`
subtraction reproduces. -/
def padTo (v : Int) (L : Nat) (ids : List Int) : List Int :=
  (ids ++ List.replicate (L - ids.length) v).take L

/-- `_dynamic_padding` (source lines 265-280): per-batch pad lengths are the
configured maxima capped by the per-batch maxima (lines 269-270, `max` of an
empty row set raises), then every token row is padded with `pad_id` and every
tag row with `-1`. -/
def dynamic_padding (cfg : Config) (bd : BatchData) (pad_id : Int) :
    Except String (BatchData × Nat × Nat) :=
  match pyMax bd.passage_length with
  | .error e => .error e
  | .ok mp =>
    let pad_p_len := min cfg.max_p_len mp
    match pyMax bd.question_length with
    | .error e => .error e
    | .ok mq =>
      let pad_q_len := min cfg.max_q_len mq
      .ok ({ bd with
              passage_token_ids := bd.passage_token_ids.map (padTo pad_id pad_p_len)
              question_token_ids := bd.question_token_ids.map (padTo pad_id pad_q_len)
              pos_questions := bd.pos_questions.map (padTo (-1) pad_q_len)
              keyword_questions := bd.keyword_questions.map (padTo (-1) pad_q_len)
              pos_passages := bd.pos_passages.map (padTo (-1) pad_p_len)
              keyword_passages := bd.keyword_passages.map (padTo (-1) pad_p_len) },
            pad_p_len, pad_q_len)

/-- One label slot of the answer remapping (source lines 244-253): a slot
below the record's `best_match_doc_ids` count translates the passage-local
span by `padded_p_len * best_match_doc_ids[aidx]`; a slot beyond it emits
`(0, 0)` with score `0`. -/
def ansEntry (pp : Nat) (s : Sample) (aidx : Nat) : Except String (Int × Int × Int) :=
  if aidx < s.best_match_doc_ids.length then
    let gold : Int := (pp : Int) * s.best_match_doc_ids.getD aidx 0
    match pyField s.answer_labels with
    | .error e => .error e
    | .ok labs =>
      match pyGet labs aidx with
      | .error e => .error e
      | .ok lab =>
        match pyGet s.best_match_scores aidx with
        | .error e => .error e
        | .ok sc => .ok (gold + lab.1, gold + lab.2, sc)
  else .ok (0, 0, 0)

/-- One record's three label rows (source lines 241-256): one entry per
answer slot `0 .. maxAns-1`. -/
def ansRow (pp : Nat) (maxAns : Nat) (s : Sample) :
    Except String (List Int × List Int × List Int) :=
  match eMapM (ansEntry pp s) (List.range maxAns) with
  | .error e => .error e
  | .ok trips =>
    .ok (trips.map (fun t => t.1), trips.map (fun t => t.2.1), trips.map (fun t => t.2.2))

/-- `_one_mini_batch` (source lines 176-263), additionally returning the two
pad lengths that `_dynamic_padding` hands back (line 236), which the label
remapping consumes.  Order of effects follows the source: max passage count
(202-203), max answer count over every record's `answer_labels` (205), the
row loop, dynamic padding (236), then the label fields (239-261). -/
def one_mini_batchFull (cfg : Config) (samples : List Sample) (pad_id : Int)
    (is_testing : Bool) : Except String (BatchData × Nat × Nat) :=
  match pyMax (samples.map (fun s => s.documents.length)) with
  | .error e => .error e
  | .ok mp0 =>
    let maxP := min cfg.max_p_num mp0
    match eMapM (fun s => pyField s.answer_labels) samples with
    | .error e => .error e
    | .ok labelLists =>
      match pyMax (labelLists.map List.length) with
      | .error e => .error e
      | .ok maxAns =>
        let rows := batchRows cfg is_testing maxP samples
        match dynamic_padding cfg (initBatch samples rows) pad_id with
        | .error e => .error e
        | .ok (bd, pp, pq) =>
          if is_testing then
            .ok ({ bd with
                    start_ids := List.replicate samples.length (List.replicate maxAns 0)
                    end_ids := List.replicate samples.length (List.replicate maxAns 0)
                    match_scores := List.replicate samples.length (List.replicate maxAns 0) },
                  pp, pq)
          else
            match eMapM (ansRow pp maxAns) samples with
            | .error e => .error e
            | .ok lrows =>
              .ok ({ bd with
                      start_ids := lrows.map (fun t => t.1)
                      end_ids := lrows.map (fun t => t.2.1)
                      match_scores := lrows.map (fun t => t.2.2) },
                    pp, pq)

/-- `_one_mini_batch` as the source returns it: just the batch dictionary. -/
def one_mini_batch (cfg : Config) (samples : List Sample) (pad_id : Int)
    (is_testing : Bool) : Except String BatchData :=
  match one_mini_batchFull cfg samples pad_id is_testing with
  | .error e => .error e
  | .ok (bd, _, _) => .ok bd

/-- Successive slices `l[b : b+k+1]` for `b = 0, k+1, 2(k+1), ...`, mirroring
the `np.arange(0, data_size, batch_size)` loop of `gen_mini_batches`
(source lines 172-173); the fuel argument is an upper bound on the list
length, making the recursion structural. -/
def chunksAux {α : Type} (k : Nat) : Nat → List α → List (List α)
  | 0, _ => []
  | _, [] => []
  | fuel + 1, x :: xs => (x :: xs.take k) :: chunksAux k fuel (xs.drop k)

/-- The batch slices of an index list for batch size `k + 1`. -/
def chunksPos {α : Type} (k : Nat) (l : List α) : List (List α) :=
  chunksAux k l.length l

/-- The three partitions owned by the dataset object
(`self.train_set`, `self.dev_set`, `self.test_set`). -/
structure BRCSets where
  train_set : List Sample
  dev_set : List Sample
  test_set : List Sample
deriving DecidableEq, Repr

/-- The partition dispatch of `gen_mini_batches` (source lines 158-167):
`test` is the only selector that sets `is_testing`. -/
def selectSet (sets : BRCSets) (set_name : String) : Except String (List Sample × Bool) :=
  if set_name = "train" then .ok (sets.train_set, false)
  else if set_name = "dev" then .ok (sets.dev_set, false)
  else if set_name = "test" then .ok (sets.test_set, true)
  else .error "NotImplementedError: no data set with that name"

/-- `gen_mini_batches` (source lines 147-174).  `perm` stands for the index
array after the optional `np.random.shuffle` (the identity permutation when
`shuffle=False`); each slice of it selects the records of one batch.  The
batches are returned as a list, the eager transcript of the Python
generator. -/
def gen_mini_batches (cfg : Config) (sets : BRCSets) (set_name : String)
    (perm : List Nat) (batch_size : Nat) (pad_id : Int) :
    Except String (List BatchData) :=
  match selectSet sets set_name with
  | .error e => .error e
  | .ok (data, is_testing) =>
    if batch_size = 0 then .error "ValueError: arange step must not be zero"
    else
      eMapM (fun ch => one_mini_batch cfg (ch.map (fun i => data.getD i default)) pad_id is_testing)
        (chunksPos (batch_size - 1) perm)

/-! ## Named quantities and concrete records used by the claims -/

/-- A syntactically well-formed record with zero documents, as a non-training
partition may contain (such records are passed through unfiltered). -/
def sC2 : Sample :=
  { segmented_question := ["q"], documents := [], fake_answers := []
    answer_labels := some [], best_match_doc_ids := [], best_match_scores := []
    question_token_ids := [], pos_question := [], keyword_question := []
    error_info := none }

/-- A record lacking `answer_labels`, as a test source may contain. -/
def sC9 : Sample :=
  { segmented_question := ["q"]
    documents := [{ segmented_passage := ["w"], passage_token_ids := [4]
                    is_selected := false, pos_passage := [0], keyword_passage := [0] }]
    fake_answers := [], answer_labels := none, best_match_doc_ids := []
    best_match_scores := [], question_token_ids := [2], pos_question := [0]
    keyword_question := [0], error_info := none }

/-- The per-batch passage cap `max_passage_num` of `_one_mini_batch`
(source lines 202-203), expressed with a total fold (`max` of a non-empty
list equals its fold from `0`). -/
def maxPassageNum (cfg : Config) (samples : List Sample) : Nat :=
  min cfg.max_p_num ((samples.map (fun s => s.documents.length)).foldl max 0)

/-- The flattened row count of a batch: one row per record and passage
slot. -/
def rowCount (cfg : Config) (samples : List Sample) : Nat :=
  samples.length * maxPassageNum cfg samples

/-- The per-batch `max_ans_num` of `_one_mini_batch` (source line 205). -/
def ansCount (samples : List Sample) : Nat :=
  (samples.map (fun s => (s.answer_labels.getD []).length)).foldl max 0

/-- Concrete configuration for the C5 witness. -/
def cfgC5 : Config := ⟨2, 3, 3⟩

/-- Concrete two-record batch for the C5 witness: one record with one
document and one answer, one with two documents and two answers. -/
def samplesC5 : List Sample :=
  [{ segmented_question := ["q"]
     documents := [{ segmented_passage := ["a"], passage_token_ids := [1, 2]
                     is_selected := true, pos_passage := [0, 0], keyword_passage := [0, 0] }]
     fake_answers := ["x"], answer_labels := some [(0, 1)]
     best_match_doc_ids := [0], best_match_scores := [1]
     question_token_ids := [5], pos_question := [0], keyword_question := [0]
     error_info := none },
   { segmented_question := ["r"]
     documents := [{ segmented_passage := ["a"], passage_token_ids := [1, 2]
                     is_selected := true, pos_passage := [0, 0], keyword_passage := [0, 0] },
                   { segmented_passage := ["b"], passage_token_ids := [3]
                     is_selected := false, pos_passage := [0], keyword_passage := [0] }]
     fake_answers := ["y", "z"], answer_labels := some [(0, 1), (0, 0)]
     best_match_doc_ids := [0, 1], best_match_scores := [1, 2]
     question_token_ids := [6, 7], pos_question := [0, 0], keyword_question := [0, 0]
     error_info := none }]

/-- Concrete configuration of the spec's offset-remapping example:
`max_passage_len = 50`. -/
def cfgC4 : Config := ⟨1, 50, 5⟩

/-- Concrete record of the spec's offset-remapping example: a 60-token
passage (so the padded length is capped at 50), `best_match_doc_ids[0] = 2`
and `answer_labels[0] = (3, 7)`. -/
def sC4 : Sample :=
  { segmented_question := ["q"]
    documents := [{ segmented_passage := [], passage_token_ids := List.replicate 60 7
                    is_selected := true, pos_passage := [0], keyword_passage := [0] }]
    fake_answers := ["a"], answer_labels := some [(3, 7)]
    best_match_doc_ids := [2], best_match_scores := [9]
    question_token_ids := [1], pos_question := [1], keyword_question := [1]
    error_info := none }

/-- Concrete configuration for the C10 witness: `max_passage_len = 3`,
`max_question_len = 2`. -/
def cfgC10 : Config := ⟨2, 3, 2⟩

/-- Concrete record for the C10 witness: a five-token passage (capped to 3)
and a four-token question (longer than `max_question_len = 2`). -/
def sC10 : Sample :=
  { segmented_question := ["q"]
    documents := [{ segmented_passage := [], passage_token_ids := [5, 6, 7, 8, 9]
                    is_selected := false, pos_passage := [0], keyword_passage := [0] }]
    fake_answers := ["a"], answer_labels := some [(0, 0)]
    best_match_doc_ids := [0], best_match_scores := [1]
    question_token_ids := [1, 2, 3, 4], pos_question := [1], keyword_question := [1]
    error_info := none }

/-- Concrete one-record dev partition for the C6 witness. -/
def setsC6 : BRCSets :=
  ⟨[],
   [{ segmented_question := ["q"]
      documents := [{ segmented_passage := ["w"], passage_token_ids := [4]
                      is_selected := true, pos_passage := [0], keyword_passage := [0] }]
      fake_answers := ["a"], answer_labels := some [(0, 0)]
      best_match_doc_ids := [0], best_match_scores := [1]
      question_token_ids := [2], pos_question := [0], keyword_question := [0]
      error_info := none }],
   []⟩

/-- A training record whose first answer label is `(-1, 5)`: `-1` in the
first component only, so it is not the exact pair `(-1, -1)`. -/
def sC1 : Sample :=
  { segmented_question := ["q"]
    documents := [{ segmented_passage := ["w"], passage_token_ids := [4]
                    is_selected := true, pos_passage := [0], keyword_passage := [0] }]
    fake_answers := ["a", "b"], answer_labels := some [(-1, 5), (2, 3)]
    best_match_doc_ids := [0, 1], best_match_scores := [10, 20]
    question_token_ids := [], pos_question := [], keyword_question := []
    error_info := none }

/-- A record whose `answer_labels` field is present and no longer than each
of the three parallel sequences (the shape §3 of the spec guarantees for
parseable training records). -/
def WFSample (s : Sample) : Prop :=
  ∃ labs, s.answer_labels = some labs
    ∧ labs.length ≤ s.best_match_doc_ids.length
    ∧ labs.length ≤ s.best_match_scores.length
    ∧ labs.length ≤ s.fake_answers.length

/-- A disqualified training record (`fake_answers` empty) used to refute the
never-raises half of C8 on a second load call. -/
def sC8 : Sample :=
  { segmented_question := ["q"]
    documents := [{ segmented_passage := ["w"], passage_token_ids := [4]
                    is_selected := true, pos_passage := [0], keyword_passage := [0] }]
    fake_answers := [], answer_labels := none, best_match_doc_ids := []
    best_match_scores := [], question_token_ids := [], pos_question := []
    keyword_question := [], error_info := none }

/-- A well-formed accepted training record for the C8 witness. -/
def sC8w : Sample :=
  { segmented_question := ["q"]
    documents := [{ segmented_passage := ["w"], passage_token_ids := [4]
                    is_selected := true, pos_passage := [0], keyword_passage := [0] }]
    fake_answers := ["a"], answer_labels := some [(0, 1)]
    best_match_doc_ids := [0], best_match_scores := [1]
    question_token_ids := [], pos_question := [], keyword_question := []
    error_info := none }

/-- An `empty_question` record used in the C3 counterexample and witness. -/
def sC3 : Sample :=
  { segmented_question := [], documents := [], fake_answers := []
    answer_labels := none, best_match_doc_ids := [], best_match_scores := []
    question_token_ids := [], pos_question := [], keyword_question := []
    error_info := none }

/-! ## General lemmas about the Python-primitive helpers -/

theorem foldl_max_le {l : List Nat} {c : Nat} :
    ∀ {a : Nat}, a ≤ c → (∀ e ∈ l, e ≤ c) → l.foldl max a ≤ c := by
  induction l with
  | nil => intro a ha _; simpa using ha
  | cons x xs ih =>
    intro a ha hall
    simp only [List.foldl_cons]
    exact ih (max_le ha (hall x (by simp))) (fun e he => hall e (by simp [he]))

theorem le_foldl_max (l : List Nat) (a : Nat) : a ≤ l.foldl max a := by
  induction l generalizing a with
  | nil => simp
  | cons x xs ih => exact le_trans (le_max_left a x) (ih (max a x))

theorem mem_le_foldl_max {l : List Nat} {e : Nat} (he : e ∈ l) (a : Nat) :
    e ≤ l.foldl max a := by
  induction l generalizing a with
  | nil => cases he
  | cons x xs ih =>
    rcases List.mem_cons.mp he with h | h
    · subst h
      exact le_trans (le_max_right a e) (le_foldl_max xs (max a e))
    · exact ih h (max a x)

theorem pyMax_ok_ne_nil {l : List Nat} {m : Nat} (h : pyMax l = .ok m) : l ≠ [] := by
  intro hnil; subst hnil; simp [pyMax] at h

theorem pyMax_of_ne_nil {l : List Nat} (h : l ≠ []) : pyMax l = .ok (l.foldl max 0) := by
  cases l with
  | nil => exact absurd rfl h
  | cons x xs => simp [pyMax, List.foldl_cons, Nat.zero_max]

theorem pyMax_ok_val {l : List Nat} {m : Nat} (h : pyMax l = .ok m) :
    m = l.foldl max 0 := by
  have := pyMax_of_ne_nil (pyMax_ok_ne_nil h)
  rw [this] at h
  exact (Except.ok.inj h).symm

theorem pyGet_of_lt {α : Type} {l : List α} {i : Nat} (h : i < l.length) (d : α) :
    pyGet l i = .ok (l.getD i d) := by
  unfold pyGet
  rw [List.get?_eq_getElem?, List.getElem?_eq_getElem h]
  simp [List.getD_eq_getElem?_getD, List.getElem?_eq_getElem h]

theorem pyGet_ok_lt {α : Type} {l : List α} {i : Nat} {v : α}
    (h : pyGet l i = .ok v) : i < l.length := by
  unfold pyGet at h
  split at h
  · rename_i w hw
    rw [List.get?_eq_getElem?] at hw
    exact (List.getElem?_eq_some_iff.mp hw).1
  · simp at h

theorem pyGet_ok_val {α : Type} {l : List α} {i : Nat} {v : α}
    (h : pyGet l i = .ok v) (d : α) : v = l.getD i d := by
  have hlt := pyGet_ok_lt h
  rw [pyGet_of_lt hlt d] at h
  exact (Except.ok.inj h).symm

theorem pyField_ok_iff {o : Option (List (Int × Int))} {l : List (Int × Int)} :
    pyField o = .ok l ↔ o = some l := by
  cases o <;> simp [pyField]

theorem eMapM_ok_iff {α β : Type} {f : α → Except String β} :
    ∀ {l : List α} {r : List β},
      eMapM f l = .ok r ↔ List.Forall₂ (fun a b => f a = .ok b) l r := by
  intro l
  induction l with
  | nil =>
    intro r
    constructor
    · intro h
      cases r with
      | nil => exact List.Forall₂.nil
      | cons b bs => simp [eMapM] at h
    · intro h; cases h; rfl
  | cons a as ih =>
    intro r
    constructor
    · intro h
      unfold eMapM at h
      split at h
      · simp at h
      · rename_i b hb
        split at h
        · simp at h
        · rename_i bs hbs
          cases r with
          | nil => simp at h
          | cons r0 rs =>
            have hinj := Except.ok.inj h
            cases hinj
            exact List.Forall₂.cons hb (ih.mp hbs)
    · intro h
      cases h with
      | cons hb hbs =>
        rename_i b bs
        unfold eMapM
        rw [hb, ih.mpr hbs]

theorem eMapM_ok_length {α β : Type} {f : α → Except String β} {l : List α} {r : List β}
    (h : eMapM f l = .ok r) : r.length = l.length :=
  (eMapM_ok_iff.mp h).length_eq.symm

theorem forall₂_getD {α β : Type} {R : α → β → Prop} :
    ∀ {l : List α} {r : List β}, List.Forall₂ R l r →
      ∀ {i : Nat}, i < l.length → ∀ (da : α) (db : β), R (l.getD i da) (r.getD i db) := by
  intro l r h
  induction h with
  | nil => intro i hi; cases hi
  | cons hab hrest ih =>
    intro i hi da db
    cases i with
    | zero => simpa using hab
    | succ j =>
      simp only [List.getD_cons_succ]
      exact ih (Nat.lt_of_succ_lt_succ hi) da db

theorem eMapM_ok_of_forall {α β : Type} {f : α → Except String β} :
    ∀ {l : List α}, (∀ a ∈ l, ∃ b, f a = .ok b) → ∃ r, eMapM f l = .ok r := by
  intro l
  induction l with
  | nil => intro _; exact ⟨[], rfl⟩
  | cons a as ih =>
    intro h
    obtain ⟨b, hb⟩ := h a (by simp)
    obtain ⟨bs, hbs⟩ := ih (fun x hx => h x (by simp [hx]))
    refine ⟨b :: bs, ?_⟩
    unfold eMapM
    rw [hb, hbs]

theorem forall₂_map_eq {α β γ : Type} {g : β → γ} {f : α → γ} :
    ∀ {l : List α} {r : List β}, List.Forall₂ (fun a b => g b = f a) l r →
      r.map g = l.map f := by
  intro l r h
  induction h with
  | nil => rfl
  | cons hab _ ih => simp [List.map_cons, hab, ih]

/-! ## General lemmas about `getD`, ranges and flattened row blocks -/

theorem getD_map_lt {α β : Type} (f : α → β) {l : List α} {i : Nat}
    (h : i < l.length) (da : α) (db : β) : (l.map f).getD i db = f (l.getD i da) := by
  induction l generalizing i with
  | nil => cases h
  | cons x xs ih =>
    cases i with
    | zero => simp
    | succ j =>
      simp only [List.map_cons, List.getD_cons_succ]
      exact ih (Nat.lt_of_succ_lt_succ h) 

theorem getD_append_lt {α : Type} {l1 l2 : List α} {i : Nat} (h : i < l1.length) (d : α) :
    (l1 ++ l2).getD i d = l1.getD i d := by
  induction l1 generalizing i with
  | nil => cases h
  | cons x xs ih =>
    cases i with
    | zero => simp
    | succ j =>
      simp only [List.cons_append, List.getD_cons_succ]
      exact ih (Nat.lt_of_succ_lt_succ h)

theorem getD_append_add {α : Type} (l1 l2 : List α) (i : Nat) (d : α) :
    (l1 ++ l2).getD (l1.length + i) d = l2.getD i d := by
  induction l1 with
  | nil => simp
  | cons x xs ih =>
    simpa [List.cons_append, Nat.succ_add, List.getD_cons_succ] using ih

theorem getD_range {n i : Nat} (h : i < n) (d : Nat) : (List.range n).getD i d = i := by
  rw [List.getD_eq_getElem?_getD, List.getElem?_range h]
  rfl

theorem map_getD_range {α : Type} (l : List α) (d : α) :
    (List.range l.length).map (fun i => l.getD i d) = l := by
  induction l with
  | nil => rfl
  | cons x xs ih =>
    rw [List.length_cons, List.range_succ_eq_map, List.map_cons, List.map_map]
    have hfun : ((fun i => (x :: xs).getD i d) ∘ Nat.succ) = fun i => xs.getD i d := by
      funext i
      simp [Function.comp, List.getD_cons_succ]
    rw [List.getD_cons_zero, hfun, ih]

theorem joinMapRange_length {α β : Type} (f : α → Nat → β) (l : List α) (m : Nat) :
    ((l.map (fun s => (List.range m).map (f s))).flatten).length = l.length * m := by
  induction l with
  | nil => simp
  | cons x xs ih =>
    simp only [List.map_cons, List.flatten_cons, List.length_append, List.length_map,
      List.length_range, List.length_cons, ih]
    ring

theorem joinMapRange_getD {α β : Type} (f : α → Nat → β) {l : List α} {m : Nat} :
    ∀ {i j : Nat}, i < l.length → j < m → ∀ (da : α) (db : β),
      ((l.map (fun s => (List.range m).map (f s))).flatten).getD (i * m + j) db
        = f (l.getD i da) j := by
  induction l with
  | nil => intro i j hi; cases hi
  | cons x xs ih =>
    intro i j hi hj da db
    simp only [List.map_cons, List.flatten_cons]
    cases i with
    | zero =>
      rw [Nat.zero_mul, Nat.zero_add,
        getD_append_lt (by simpa using hj) db,
        getD_map_lt (f x) (by simpa using hj) 0 db, getD_range hj]
      simp
    | succ i0 =>
      have harith : (i0 + 1) * m + j = ((List.range m).map (f x)).length + (i0 * m + j) := by
        simp only [List.length_map, List.length_range]
        ring
      rw [harith, getD_append_add]
      simpa using ih (Nat.lt_of_succ_lt_succ hi) hj da db

theorem mem_joinMapRange {α β : Type} {f : α → Nat → β} {l : List α} {m : Nat} {b : β}
    (hb : b ∈ (l.map (fun s => (List.range m).map (f s))).flatten) :
    ∃ s ∈ l, ∃ j, j < m ∧ b = f s j := by
  rcases List.mem_flatten.mp hb with ⟨blk, hblk, hbin⟩
  rcases List.mem_map.mp hblk with ⟨s, hs, hseq⟩
  subst hseq
  rcases List.mem_map.mp hbin with ⟨j, hj, hbeq⟩
  exact ⟨s, hs, j, List.mem_range.mp hj, hbeq.symm⟩

/-! ## Lemmas about the batch slicing of `gen_mini_batches` -/

theorem chunksAux_nil {α : Type} (k fuel : Nat) : chunksAux (α := α) k fuel [] = [] := by
  cases fuel <;> rfl

theorem chunksAux_flatten {α : Type} (k : Nat) :
    ∀ (fuel : Nat) (l : List α), l.length ≤ fuel → (chunksAux k fuel l).flatten = l := by
  intro fuel
  induction fuel with
  | zero =>
    intro l hl
    have : l = [] := List.length_eq_zero.mp (Nat.le_zero.mp hl)
    subst this; rfl
  | succ n ih =>
    intro l hl
    cases l with
    | nil => rfl
    | cons x xs =>
      simp only [chunksAux, List.flatten_cons]
      have hlen : (xs.drop k).length ≤ n := by
        simp only [List.length_drop]
        have : xs.length ≤ n := by simpa using hl
        omega
      rw [ih (xs.drop k) hlen]
      simp [List.take_append_drop]

theorem chunksPos_flatten {α : Type} (k : Nat) (l : List α) :
    (chunksPos k l).flatten = l :=
  chunksAux_flatten k l.length l le_rfl

theorem chunksAux_length_le {α : Type} (k : Nat) :
    ∀ (fuel : Nat) (l : List α), ∀ c ∈ chunksAux k fuel l, c.length ≤ k + 1 := by
  intro fuel
  induction fuel with
  | zero => intro l c hc; simp [chunksAux] at hc
  | succ n ih =>
    intro l c hc
    cases l with
    | nil => simp [chunksAux] at hc
    | cons x xs =>
      simp only [chunksAux, List.mem_cons] at hc
      rcases hc with hc | hc
      · subst hc
        simp only [List.length_cons, List.length_take]
        omega
      · exact ih (xs.drop k) c hc

theorem chunksAux_dropLast {α : Type} (k : Nat) :
    ∀ (fuel : Nat) (l : List α), l.length ≤ fuel →
      ∀ c ∈ (chunksAux k fuel l).dropLast, c.length = k + 1 := by
  intro fuel
  induction fuel with
  | zero => intro l hl c hc; simp [chunksAux] at hc
  | succ n ih =>
    intro l hl c hc
    cases l with
    | nil => simp [chunksAux] at hc
    | cons x xs =>
      simp only [chunksAux] at hc
      cases hrest : chunksAux k n (xs.drop k) with
      | nil => rw [hrest] at hc; simp at hc
      | cons c0 cs =>
        rw [hrest] at hc
        rw [List.dropLast_cons₂] at hc
        rcases List.mem_cons.mp hc with hc | hc
        · subst hc
          have hdrop : xs.drop k ≠ [] := by
            intro hnil
            rw [hnil, chunksAux_nil] at hrest
            exact List.noConfusion hrest
          have hk : k < xs.length := by
            by_contra hge
            exact hdrop (List.drop_eq_nil_of_le (Nat.le_of_not_lt hge))
          simp only [List.length_cons, List.length_take]
          omega
        · have hlen : (xs.drop k).length ≤ n := by
            simp only [List.length_drop]
            have : xs.length ≤ n := by simpa using hl
            omega
          have := ih (xs.drop k) hlen c
          rw [hrest] at this
          exact this hc

theorem chunksPos_dropLast {α : Type} (k : Nat) (l : List α) :
    ∀ c ∈ (chunksPos k l).dropLast, c.length = k + 1 :=
  chunksAux_dropLast k l.length l le_rfl

theorem chunksPos_length_le {α : Type} (k : Nat) (l : List α) :
    ∀ c ∈ chunksPos k l, c.length ≤ k + 1 :=
  chunksAux_length_le k l.length l

/-! ## Lemmas about `padTo` -/

theorem padTo_length (v : Int) (L : Nat) (ids : List Int) :
    (padTo v L ids).length = L := by
  simp only [padTo, List.length_take, List.length_append, List.length_replicate]
  omega

theorem padTo_eq_of_len {ids : List Int} {L : Nat} (h : ids.length = L) (v : Int) :
    padTo v L ids = ids := by
  subst h
  simp [padTo]

/-! ## Inversion lemmas for the batching pipeline -/

theorem dynamic_padding_ok_inv {cfg : Config} {bd : BatchData} {pad : Int}
    {bd2 : BatchData} {pp pq : Nat}
    (h : dynamic_padding cfg bd pad = .ok (bd2, pp, pq)) :
    bd.passage_length ≠ [] ∧
    pp = min cfg.max_p_len (bd.passage_length.foldl max 0) ∧
    pq = min cfg.max_q_len (bd.question_length.foldl max 0) ∧
    bd2 = { bd with
            passage_token_ids := bd.passage_token_ids.map (padTo pad pp)
            question_token_ids := bd.question_token_ids.map (padTo pad pq)
            pos_questions := bd.pos_questions.map (padTo (-1) pq)
            keyword_questions := bd.keyword_questions.map (padTo (-1) pq)
            pos_passages := bd.pos_passages.map (padTo (-1) pp)
            keyword_passages := bd.keyword_passages.map (padTo (-1) pp) } := by
  unfold dynamic_padding at h
  split at h
  · exact absurd h (by simp)
  · rename_i mp hmp
    split at h
    · exact absurd h (by simp)
    · rename_i mq hmq
      have hinj := Except.ok.inj h
      have hbd2 : bd2 = { bd with
          passage_token_ids := bd.passage_token_ids.map (padTo pad (min cfg.max_p_len mp))
          question_token_ids := bd.question_token_ids.map (padTo pad (min cfg.max_q_len mq))
          pos_questions := bd.pos_questions.map (padTo (-1) (min cfg.max_q_len mq))
          keyword_questions := bd.keyword_questions.map (padTo (-1) (min cfg.max_q_len mq))
          pos_passages := bd.pos_passages.map (padTo (-1) (min cfg.max_p_len mp))
          keyword_passages := bd.keyword_passages.map (padTo (-1) (min cfg.max_p_len mp)) } :=
        congrArg Prod.fst hinj |>.symm
      have hpp : pp = min cfg.max_p_len mp :=
        (congrArg (fun r => r.2.1) hinj).symm
      have hpq : pq = min cfg.max_q_len mq :=
        (congrArg (fun r => r.2.2) hinj).symm
      have hmpv : mp = bd.passage_length.foldl max 0 := pyMax_ok_val hmp
      have hmqv : mq = bd.question_length.foldl max 0 := pyMax_ok_val hmq
      refine ⟨pyMax_ok_ne_nil hmp, ?_, ?_, ?_⟩
      · rw [hpp, hmpv]
      · rw [hpq, hmqv]
      · rw [hbd2, hpp, hpq]

theorem ombFull_ok_inv {cfg : Config} {samples : List Sample} {pad : Int} {t : Bool}
    {bd : BatchData} {pp pq : Nat}
    (h : one_mini_batchFull cfg samples pad t = .ok (bd, pp, pq)) :
    ∃ mp0 lls maxAns bd1,
      pyMax (samples.map (fun s => s.documents.length)) = .ok mp0 ∧
      eMapM (fun s => pyField s.answer_labels) samples = .ok lls ∧
      pyMax (lls.map List.length) = .ok maxAns ∧
      dynamic_padding cfg
        (initBatch samples (batchRows cfg t (min cfg.max_p_num mp0) samples)) pad
        = .ok (bd1, pp, pq) ∧
      ((t = true ∧
        bd = { bd1 with
                start_ids := List.replicate samples.length (List.replicate maxAns 0)
                end_ids := List.replicate samples.length (List.replicate maxAns 0)
                match_scores := List.replicate samples.length (List.replicate maxAns 0) }) ∨
       (t = false ∧ ∃ lrows,
        eMapM (ansRow pp maxAns) samples = .ok lrows ∧
        bd = { bd1 with
                start_ids := lrows.map (fun r => r.1)
                end_ids := lrows.map (fun r => r.2.1)
                match_scores := lrows.map (fun r => r.2.2) })) := by
  unfold one_mini_batchFull at h
  cases hmp0 : pyMax (samples.map (fun s => s.documents.length)) with
  | error e => rw [hmp0] at h; simp at h
  | ok mp0 =>
    rw [hmp0] at h
    dsimp only at h
    cases hlls : eMapM (fun s => pyField s.answer_labels) samples with
    | error e => rw [hlls] at h; simp at h
    | ok lls =>
      rw [hlls] at h
      dsimp only at h
      cases hmaxAns : pyMax (lls.map List.length) with
      | error e => rw [hmaxAns] at h; simp at h
      | ok maxAns =>
        rw [hmaxAns] at h
        dsimp only at h
        cases hdp : dynamic_padding cfg
            (initBatch samples (batchRows cfg t (min cfg.max_p_num mp0) samples)) pad with
        | error e => rw [hdp] at h; simp at h
        | ok res =>
          obtain ⟨bd1, pp1, pq1⟩ := res
          rw [hdp] at h
          dsimp only at h
          cases t with
          | true =>
            rw [if_pos rfl] at h
            have hinj := Except.ok.inj h
            have hpp : pp1 = pp := congrArg (fun r => r.2.1) hinj
            have hpq : pq1 = pq := congrArg (fun r => r.2.2) hinj
            refine ⟨mp0, lls, maxAns, bd1, rfl, rfl, hmaxAns, ?_, ?_⟩
            · rw [← hpp, ← hpq]; exact hdp
            · left
              exact ⟨rfl, (congrArg Prod.fst hinj).symm⟩
          | false =>
            rw [if_neg (by simp)] at h
            cases hlrows : eMapM (ansRow pp1 maxAns) samples with
            | error e => rw [hlrows] at h; simp at h
            | ok lrows =>
              rw [hlrows] at h
              dsimp only at h
              have hinj := Except.ok.inj h
              have hpp : pp1 = pp := congrArg (fun r => r.2.1) hinj
              have hpq : pq1 = pq := congrArg (fun r => r.2.2) hinj
              refine ⟨mp0, lls, maxAns, bd1, rfl, rfl, hmaxAns, ?_, ?_⟩
              · rw [← hpp, ← hpq]; exact hdp
              · right
                refine ⟨rfl, lrows, ?_, (congrArg Prod.fst hinj).symm⟩
                rw [← hpp]
                exact hlrows

theorem omb_ok_inv {cfg : Config} {samples : List Sample} {pad : Int} {t : Bool}
    {bd : BatchData} (h : one_mini_batch cfg samples pad t = .ok bd) :
    ∃ pp pq, one_mini_batchFull cfg samples pad t = .ok (bd, pp, pq) := by
  unfold one_mini_batch at h
  cases hfull : one_mini_batchFull cfg samples pad t with
  | error e => rw [hfull] at h; simp at h
  | ok res =>
    obtain ⟨bd1, pp, pq⟩ := res
    rw [hfull] at h
    dsimp only at h
    exact ⟨pp, pq, by rw [Except.ok.inj h]⟩

theorem flatten_map_nil {α β : Type} (l : List α) :
    (l.map (fun _ => ([] : List β))).flatten = [] := by
  induction l <;> simp_all

theorem omb_raw_data {cfg : Config} {samples : List Sample} {pad : Int} {t : Bool}
    {bd : BatchData} {pp pq : Nat}
    (h : one_mini_batchFull cfg samples pad t = .ok (bd, pp, pq)) :
    bd.raw_data = samples := by
  obtain ⟨mp0, lls, maxAns, bd1, _, _, _, hdp, hbr⟩ := ombFull_ok_inv h
  obtain ⟨_, _, _, hbd1⟩ := dynamic_padding_ok_inv hdp
  rcases hbr with ⟨_, hbd⟩ | ⟨_, lrows, _, hbd⟩ <;>
    simp [hbd, hbd1, initBatch]

theorem lls_lengths {samples : List Sample} {lls : List (List (Int × Int))}
    (h : eMapM (fun s => pyField s.answer_labels) samples = .ok lls) :
    lls.map List.length = samples.map (fun s => (s.answer_labels.getD []).length) := by
  have h2 := (eMapM_ok_iff.mp h).imp
    (fun {s b} hsb => by
      rw [pyField_ok_iff] at hsb
      show List.length b = (s.answer_labels.getD []).length
      rw [hsb]
      rfl)
  exact forall₂_map_eq h2

/-! ## Claim C7: padding and truncation laws of the dynamic padding unit -/

/-- Claim C7: the per-sequence pad operation of `_dynamic_padding` obeys the
padding and truncation laws: a sequence longer than the pad length is cut to
its first `L` elements, a sequence already at the pad length is returned
unchanged, and re-padding to the same length is a no-op. -/
theorem claim_C7 :
    (∀ (v : Int) (L : Nat) (ids : List Int), L < ids.length → padTo v L ids = ids.take L)
    ∧ (∀ (v : Int) (ids : List Int), padTo v ids.length ids = ids)
    ∧ (∀ (v : Int) (L : Nat) (ids : List Int), padTo v L (padTo v L ids) = padTo v L ids) := by
  refine ⟨?_, ?_, ?_⟩
  · intro v L ids h
    simp [padTo, Nat.sub_eq_zero_of_le (Nat.le_of_lt h)]
  · intro v ids
    exact padTo_eq_of_len rfl v
  · intro v L ids
    exact padTo_eq_of_len (padTo_length v L ids) v

/-- Witness for C7 at a concrete over-long sequence. -/
theorem claim_C7_witness :
    2 < ([1, 2, 3, 4, 5] : List Int).length
    ∧ padTo 0 2 [1, 2, 3, 4, 5] = List.take 2 [1, 2, 3, 4, 5] :=
  ⟨by decide, claim_C7.1 0 2 [1, 2, 3, 4, 5] (by decide)⟩

/-! ## Claim C2: batches in which every record has zero documents -/

/-- Counterexample to claim C2 as stated: on a dev-style (non-test) batch
whose single record has zero documents, the assembler does not produce an
empty-but-valid batch; it raises, because `_dynamic_padding` takes the max of
an empty `passage_length` list. -/
theorem claim_C2_cex :
    one_mini_batch ⟨5, 10, 10⟩ [sC2] 0 false
      = .error "ValueError: max() arg is an empty sequence" := rfl

/-- Claim C2 (amended): for every non-empty batch in which every selected
record has zero documents, the mini-batch assembler raises (`max()` of the
empty per-row `passage_length` list in `_dynamic_padding`) instead of
returning a batch. -/
theorem claim_C2 (cfg : Config) (samples : List Sample) (pad : Int) (t : Bool)
    (_hne : samples ≠ []) (hdocs : ∀ s ∈ samples, s.documents = []) :
    (one_mini_batch cfg samples pad t).toOption = none := by
  cases hres : one_mini_batch cfg samples pad t with
  | error e => rfl
  | ok bd =>
    exfalso
    obtain ⟨pp, pq, hfull⟩ := omb_ok_inv hres
    obtain ⟨mp0, lls, maxAns, bd1, hmp0, hlls, hmaxAns, hdp, _⟩ := ombFull_ok_inv hfull
    have hzero : ∀ e ∈ samples.map (fun s => s.documents.length), e = 0 := by
      intro e he
      rcases List.mem_map.mp he with ⟨s, hs, hse⟩
      rw [← hse, hdocs s hs]
      rfl
    have hmp0v : mp0 = 0 := by
      have hval := pyMax_ok_val hmp0
      have hle : (samples.map (fun s => s.documents.length)).foldl max 0 ≤ 0 :=
        foldl_max_le le_rfl (fun e he => Nat.le_of_eq (hzero e he))
      omega
    have hrows : batchRows cfg t (min cfg.max_p_num mp0) samples = [] := by
      rw [hmp0v]
      simp only [Nat.min_zero, batchRows, List.range_zero, List.map_nil]
      exact flatten_map_nil samples
    have hplen : (initBatch samples
        (batchRows cfg t (min cfg.max_p_num mp0) samples)).passage_length = [] := by
      rw [hrows]
      rfl
    exact (dynamic_padding_ok_inv hdp).1 hplen

/-- Witness for the amended C2 at the concrete zero-document record. -/
theorem claim_C2_witness :
    (one_mini_batch ⟨3, 4, 4⟩ [sC2] 1 false).toOption = none :=
  claim_C2 ⟨3, 4, 4⟩ [sC2] 1 false (by decide) (by decide)

/-! ## Claim C9: test batches still read every record's `answer_labels` -/

theorem eMapM_cons_ok {α β : Type} (f : α → Except String β) (a : α) (b : β)
    (as : List α) (hfa : f a = .ok b) :
    eMapM f (a :: as)
      = match eMapM f as with
        | .error e => .error e
        | .ok bs => .ok (b :: bs) := by
  simp only [eMapM]
  rw [hfa]

theorem eMapM_pyField_error {samples : List Sample} {s : Sample}
    (hmem : s ∈ samples) (hnone : s.answer_labels = none) :
    eMapM (fun x => pyField x.answer_labels) samples
      = .error "KeyError: answer_labels" := by
  induction samples with
  | nil => cases hmem
  | cons a as ih =>
    rcases List.mem_cons.mp hmem with h | h
    · subst h
      unfold eMapM
      rw [hnone]
      rfl
    · cases ha : a.answer_labels with
      | none =>
        unfold eMapM
        rw [ha]
        rfl
      | some labs =>
        rw [eMapM_cons_ok (fun x => pyField x.answer_labels) a labs as
          (show pyField a.answer_labels = .ok labs by rw [ha]; rfl)]
        rw [ih h]

/-- Claim C9: in test mode the batch assembler still reads every selected
record's `answer_labels` (to size the all-zero label columns), so a test
batch containing any record without that field fails with the key error,
even though the labels are otherwise unused in test mode. -/
theorem claim_C9 (cfg : Config) (samples : List Sample) (pad : Int) (s : Sample)
    (hmem : s ∈ samples) (hmiss : s.answer_labels = none) :
    one_mini_batch cfg samples pad true = .error "KeyError: answer_labels" := by
  have hne : samples ≠ [] := by
    intro hnil
    subst hnil
    cases hmem
  have hmapne : samples.map (fun x => x.documents.length) ≠ [] := by
    simpa [List.map_eq_nil_iff] using hne
  unfold one_mini_batch one_mini_batchFull
  rw [pyMax_of_ne_nil hmapne]
  dsimp only
  rw [eMapM_pyField_error hmem hmiss]

/-- Witness for C9 at the concrete field-less record. -/
theorem claim_C9_witness :
    one_mini_batch ⟨1, 5, 5⟩ [sC9] 0 true = .error "KeyError: answer_labels" :=
  claim_C9 ⟨1, 5, 5⟩ [sC9] 0 sC9 (by decide) rfl

/-! ## Claim C5: the result-shape invariant -/

theorem forall₂_mem_right {α β : Type} {R : α → β → Prop} :
    ∀ {l : List α} {r : List β}, List.Forall₂ R l r →
      ∀ y ∈ r, ∃ x ∈ l, R x y := by
  intro l r h
  induction h with
  | nil => intro y hy; cases hy
  | cons hab _ ih =>
    intro y hy
    rcases List.mem_cons.mp hy with hy | hy
    · subst hy
      exact ⟨_, by simp, hab⟩
    · rcases ih y hy with ⟨x, hx, hxy⟩
      exact ⟨x, by simp [hx], hxy⟩

theorem ansRow_ok_len {pp ma : Nat} {s : Sample} {trip : List Int × List Int × List Int}
    (h : ansRow pp ma s = .ok trip) :
    trip.1.length = ma ∧ trip.2.1.length = ma ∧ trip.2.2.length = ma := by
  unfold ansRow at h
  cases he : eMapM (ansEntry pp s) (List.range ma) with
  | error e => rw [he] at h; simp at h
  | ok trips =>
    rw [he] at h
    dsimp only at h
    have hlen : trips.length = ma := by
      rw [eMapM_ok_length he, List.length_range]
    rw [← Except.ok.inj h]
    simp [hlen]

theorem batchRows_length (cfg : Config) (t : Bool) (maxP : Nat) (samples : List Sample) :
    (batchRows cfg t maxP samples).length = samples.length * maxP :=
  joinMapRange_length (mkRow cfg t) samples maxP

/-- Claim C5: every produced batch has exactly `len(records) * max_passage_num`
entries in each of the nine per-row fields, where `max_passage_num` is the
configured cap `min`-ed with the batch maximum document count, and each of
the three per-record label fields has `len(records)` entries whose lengths
all equal the batch-wide maximum answer count. -/
theorem claim_C5 (cfg : Config) (samples : List Sample) (pad : Int) (t : Bool)
    (rowLens : Nat × Nat × Nat × Nat × Nat × Nat × Nat × Nat × Nat)
    (labLens : List Nat × List Nat × List Nat)
    (h : (one_mini_batch cfg samples pad t).map (fun b =>
          ((b.question_token_ids.length, b.pos_questions.length,
            b.keyword_questions.length, b.question_length.length,
            b.passage_token_ids.length, b.pos_passages.length,
            b.keyword_passages.length, b.passage_length.length,
            b.is_selected.length),
           (b.start_ids.map List.length, b.end_ids.map List.length,
            b.match_scores.map List.length))) = .ok (rowLens, labLens)) :
    rowLens =
      (rowCount cfg samples, rowCount cfg samples, rowCount cfg samples,
       rowCount cfg samples, rowCount cfg samples, rowCount cfg samples,
       rowCount cfg samples, rowCount cfg samples, rowCount cfg samples)
    ∧ labLens =
      (List.replicate samples.length (ansCount samples),
       List.replicate samples.length (ansCount samples),
       List.replicate samples.length (ansCount samples)) := by
  cases hob : one_mini_batch cfg samples pad t with
  | error e => rw [hob] at h; simp [Except.map] at h
  | ok bd =>
    rw [hob] at h
    simp only [Except.map] at h
    have hinj := Except.ok.inj h
    obtain ⟨pp, pq, hfull⟩ := omb_ok_inv hob
    obtain ⟨mp0, lls, maxAns, bd1, hmp0, hlls, hmaxAns, hdp, hbr⟩ := ombFull_ok_inv hfull
    obtain ⟨_, _, _, hbd1⟩ := dynamic_padding_ok_inv hdp
    have hmp0v : mp0 = (samples.map (fun s => s.documents.length)).foldl max 0 :=
      pyMax_ok_val hmp0
    have hmaxAnsv : maxAns = ansCount samples := by
      have hv := pyMax_ok_val hmaxAns
      rw [lls_lengths hlls] at hv
      exact hv
    have hrowlen : (batchRows cfg t (min cfg.max_p_num mp0) samples).length
        = rowCount cfg samples := by
      rw [batchRows_length, rowCount, maxPassageNum, hmp0v]
    have hrowfields :
        bd1.question_token_ids.length = rowCount cfg samples ∧
        bd1.pos_questions.length = rowCount cfg samples ∧
        bd1.keyword_questions.length = rowCount cfg samples ∧
        bd1.question_length.length = rowCount cfg samples ∧
        bd1.passage_token_ids.length = rowCount cfg samples ∧
        bd1.pos_passages.length = rowCount cfg samples ∧
        bd1.keyword_passages.length = rowCount cfg samples ∧
        bd1.passage_length.length = rowCount cfg samples ∧
        bd1.is_selected.length = rowCount cfg samples := by
      rw [hbd1]
      simp [initBatch, List.length_map, hrowlen]
    have hlab : bd.start_ids.map List.length
          = List.replicate samples.length (ansCount samples)
        ∧ bd.end_ids.map List.length
          = List.replicate samples.length (ansCount samples)
        ∧ bd.match_scores.map List.length
          = List.replicate samples.length (ansCount samples)
        ∧ bd.question_token_ids = bd1.question_token_ids
        ∧ bd.pos_questions = bd1.pos_questions
        ∧ bd.keyword_questions = bd1.keyword_questions
        ∧ bd.question_length = bd1.question_length
        ∧ bd.passage_token_ids = bd1.passage_token_ids
        ∧ bd.pos_passages = bd1.pos_passages
        ∧ bd.keyword_passages = bd1.keyword_passages
        ∧ bd.passage_length = bd1.passage_length
        ∧ bd.is_selected = bd1.is_selected := by
      rcases hbr with ⟨_, hbd⟩ | ⟨_, lrows, hlrows, hbd⟩
      · subst hbd
        refine ⟨?_, ?_, ?_, rfl, rfl, rfl, rfl, rfl, rfl, rfl, rfl, rfl⟩ <;>
          simp [hmaxAnsv, List.map_replicate]
      · subst hbd
        have hfa := eMapM_ok_iff.mp hlrows
        have hlen : lrows.length = samples.length := eMapM_ok_length hlrows
        have hone : ∀ y ∈ lrows,
            y.1.length = maxAns ∧ y.2.1.length = maxAns ∧ y.2.2.length = maxAns := by
          intro y hy
          rcases forall₂_mem_right hfa y hy with ⟨x, _, hxy⟩
          exact ansRow_ok_len hxy
        refine ⟨?_, ?_, ?_, rfl, rfl, rfl, rfl, rfl, rfl, rfl, rfl, rfl⟩ <;>
          · rw [List.eq_replicate_iff]
            constructor
            · simp [hlen]
            · intro b hb
              rcases List.mem_map.mp hb with ⟨y0, hy0, hb0⟩
              rcases List.mem_map.mp hy0 with ⟨y, hy, hy0e⟩
              subst hy0e
              rw [← hb0, ← hmaxAnsv]
              first
                | exact (hone y hy).1
                | exact (hone y hy).2.1
                | exact (hone y hy).2.2
    obtain ⟨hl1, hl2, hl3, he1, he2, he3, he4, he5, he6, he7, he8, he9⟩ := hlab
    obtain ⟨hf1, hf2, hf3, hf4, hf5, hf6, hf7, hf8, hf9⟩ := hrowfields
    rw [Prod.mk.injEq] at hinj
    obtain ⟨hA, hB⟩ := hinj
    rw [← hA, ← hB]
    constructor
    · simp only [he1, he2, he3, he4, he5, he6, he7, he8, he9]
      rw [hf1, hf2, hf3, hf4, hf5, hf6, hf7, hf8, hf9]
    · rw [hl1, hl2, hl3]

/-- Witness for C5 at the concrete two-record batch: four rows, label fields
of width two. -/
theorem claim_C5_witness :
    ((4, 4, 4, 4, 4, 4, 4, 4, 4) : Nat × Nat × Nat × Nat × Nat × Nat × Nat × Nat × Nat)
      = (rowCount cfgC5 samplesC5, rowCount cfgC5 samplesC5, rowCount cfgC5 samplesC5,
         rowCount cfgC5 samplesC5, rowCount cfgC5 samplesC5, rowCount cfgC5 samplesC5,
         rowCount cfgC5 samplesC5, rowCount cfgC5 samplesC5, rowCount cfgC5 samplesC5)
    ∧ (([2, 2], [2, 2], [2, 2]) : List Nat × List Nat × List Nat)
      = (List.replicate samplesC5.length (ansCount samplesC5),
         List.replicate samplesC5.length (ansCount samplesC5),
         List.replicate samplesC5.length (ansCount samplesC5)) :=
  claim_C5 cfgC5 samplesC5 0 false (4, 4, 4, 4, 4, 4, 4, 4, 4)
    ([2, 2], [2, 2], [2, 2]) rfl

/-! ## Claim C4: answer-span offset remapping -/

/-- Claim C4: in every non-test batch, an answer slot below the record's
answer count is emitted as the passage-local span shifted by
`pad_p_len * best_match_doc_ids[slot]` (scores copied through), and a slot at
or beyond the record's answer count is emitted as span `(0, 0)` with score
`0`. -/
theorem claim_C4 (cfg : Config) (samples : List Sample) (pad : Int)
    (sidx aidx : Nat) (hs : sidx < samples.length) (ha : aidx < ansCount samples)
    (sids eids mss : List (List Int)) (pp : Nat)
    (h : (one_mini_batchFull cfg samples pad false).map (fun r =>
          (r.1.start_ids, r.1.end_ids, r.1.match_scores, r.2.1)) = .ok (sids, eids, mss, pp)) :
    (aidx < (samples.getD sidx default).best_match_doc_ids.length →
      (sids.getD sidx []).getD aidx 0
        = (pp : Int) * (samples.getD sidx default).best_match_doc_ids.getD aidx 0
          + (((samples.getD sidx default).answer_labels.getD []).getD aidx (0, 0)).1
      ∧ (eids.getD sidx []).getD aidx 0
        = (pp : Int) * (samples.getD sidx default).best_match_doc_ids.getD aidx 0
          + (((samples.getD sidx default).answer_labels.getD []).getD aidx (0, 0)).2
      ∧ (mss.getD sidx []).getD aidx 0
        = (samples.getD sidx default).best_match_scores.getD aidx 0)
    ∧ ((samples.getD sidx default).best_match_doc_ids.length ≤ aidx →
      (sids.getD sidx []).getD aidx 0 = 0
      ∧ (eids.getD sidx []).getD aidx 0 = 0
      ∧ (mss.getD sidx []).getD aidx 0 = 0) := by
  cases hfull : one_mini_batchFull cfg samples pad false with
  | error e => rw [hfull] at h; simp [Except.map] at h
  | ok res =>
    obtain ⟨bd, pp0, pq0⟩ := res
    rw [hfull] at h
    simp only [Except.map] at h
    have hinj := Except.ok.inj h
    have hsids : sids = bd.start_ids := (congrArg (fun q => q.1) hinj).symm
    have heids : eids = bd.end_ids := (congrArg (fun q => q.2.1) hinj).symm
    have hmss : mss = bd.match_scores := (congrArg (fun q => q.2.2.1) hinj).symm
    have hppv : pp = pp0 := (congrArg (fun q => q.2.2.2) hinj).symm
    obtain ⟨mp0, lls, maxAns, bd1, hmp0, hlls, hmaxAns, hdp, hbr⟩ := ombFull_ok_inv hfull
    rcases hbr with ⟨hT, _⟩ | ⟨_, lrows, hlrows, hbd⟩
    · exact absurd hT (by simp)
    have hmaxAnsv : maxAns = ansCount samples := by
      have hv := pyMax_ok_val hmaxAns
      rw [lls_lengths hlls] at hv
      exact hv
    have hlen : lrows.length = samples.length := eMapM_ok_length hlrows
    have hrow := forall₂_getD (eMapM_ok_iff.mp hlrows) hs default default
    unfold ansRow at hrow
    cases htr : eMapM (ansEntry pp0 (samples.getD sidx default)) (List.range maxAns) with
    | error e => rw [htr] at hrow; simp at hrow
    | ok trips =>
      rw [htr] at hrow
      dsimp only at hrow
      have htripslen : trips.length = maxAns := by
        rw [eMapM_ok_length htr, List.length_range]
      have haidx : aidx < trips.length := by
        rw [htripslen, hmaxAnsv]
        exact ha
      have hy := Except.ok.inj hrow
      have hent := forall₂_getD (eMapM_ok_iff.mp htr)
        (show aidx < (List.range maxAns).length by
          rw [List.length_range, hmaxAnsv]; exact ha) 0 default
      rw [getD_range (show aidx < maxAns by rw [hmaxAnsv]; exact ha)] at hent
      have hslt : sidx < lrows.length := by
        rw [hlen]
        exact hs
      have hget1 : (sids.getD sidx []).getD aidx 0 = (trips.getD aidx default).1 := by
        rw [hsids, hbd]
        dsimp only
        rw [getD_map_lt (fun r => r.1) hslt default [], ← hy]
        dsimp only
        rw [getD_map_lt (fun tr => tr.1) haidx default 0]
      have hget2 : (eids.getD sidx []).getD aidx 0 = (trips.getD aidx default).2.1 := by
        rw [heids, hbd]
        dsimp only
        rw [getD_map_lt (fun r => r.2.1) hslt default [], ← hy]
        dsimp only
        rw [getD_map_lt (fun tr => tr.2.1) haidx default 0]
      have hget3 : (mss.getD sidx []).getD aidx 0 = (trips.getD aidx default).2.2 := by
        rw [hmss, hbd]
        dsimp only
        rw [getD_map_lt (fun r => r.2.2) hslt default [], ← hy]
        dsimp only
        rw [getD_map_lt (fun tr => tr.2.2) haidx default 0]
      constructor
      · intro hlt
        unfold ansEntry at hent
        rw [if_pos hlt] at hent
        cases hpf : pyField (samples.getD sidx default).answer_labels with
        | error e => rw [hpf] at hent; simp at hent
        | ok labs =>
          rw [hpf] at hent
          dsimp only at hent
          cases hlab : pyGet labs aidx with
          | error e => rw [hlab] at hent; simp at hent
          | ok lab =>
            rw [hlab] at hent
            dsimp only at hent
            cases hsc : pyGet (samples.getD sidx default).best_match_scores aidx with
            | error e => rw [hsc] at hent; simp at hent
            | ok sc =>
              rw [hsc] at hent
              dsimp only at hent
              have htrip := Except.ok.inj hent
              have hlabs : labs = (samples.getD sidx default).answer_labels.getD [] := by
                rw [pyField_ok_iff.mp hpf]
                rfl
              have hlabv : lab = labs.getD aidx (0, 0) := pyGet_ok_val hlab (0, 0)
              have hscv : sc = (samples.getD sidx default).best_match_scores.getD aidx 0 :=
                pyGet_ok_val hsc 0
              refine ⟨?_, ?_, ?_⟩
              · rw [hget1, ← htrip, hppv, hlabv, hlabs]
              · rw [hget2, ← htrip, hppv, hlabv, hlabs]
              · rw [hget3, ← htrip, hscv]
      · intro hge
        unfold ansEntry at hent
        rw [if_neg (Nat.not_lt.mpr hge)] at hent
        have htrip := Except.ok.inj hent
        exact ⟨by rw [hget1, ← htrip], by rw [hget2, ← htrip], by rw [hget3, ← htrip]⟩

/-- Witness for C4 at the spec's example: the flattened span is
`(103, 107) = (50 * 2 + 3, 50 * 2 + 7)` with score 9 copied through. -/
theorem claim_C4_witness :
    ([[(103 : Int)]].getD 0 []).getD 0 0
      = ((50 : Nat) : Int) * (([sC4].getD 0 default).best_match_doc_ids.getD 0 0)
        + ((([sC4].getD 0 default).answer_labels.getD []).getD 0 (0, 0)).1
    ∧ ([[(107 : Int)]].getD 0 []).getD 0 0
      = ((50 : Nat) : Int) * (([sC4].getD 0 default).best_match_doc_ids.getD 0 0)
        + ((([sC4].getD 0 default).answer_labels.getD []).getD 0 (0, 0)).2
    ∧ ([[(9 : Int)]].getD 0 []).getD 0 0
      = ([sC4].getD 0 default).best_match_scores.getD 0 0 :=
  (claim_C4 cfgC4 [sC4] 0 0 0 (by decide) (by decide)
    [[103]] [[107]] [[9]] 50 rfl).1 (by decide)

/-! ## Claim C10: length bookkeeping of the padded rows -/

theorem idx_lt_mul {i j n m : Nat} (hi : i < n) (hj : j < m) : i * m + j < n * m :=
  calc i * m + j < i * m + m := by omega
  _ = (i + 1) * m := by ring
  _ ≤ n * m := Nat.mul_le_mul_right m hi

theorem batchRows_getD (cfg : Config) (t : Bool) (maxP : Nat) {samples : List Sample}
    {sidx pidx : Nat} (hs : sidx < samples.length) (hp : pidx < maxP) :
    (batchRows cfg t maxP samples).getD (sidx * maxP + pidx) default
      = mkRow cfg t (samples.getD sidx default) pidx :=
  joinMapRange_getD (mkRow cfg t) hs hp default default

theorem batchRows_mem {cfg : Config} {t : Bool} {maxP : Nat} {samples : List Sample}
    {r : Row} (hr : r ∈ batchRows cfg t maxP samples) :
    ∃ s ∈ samples, ∃ j, j < maxP ∧ r = mkRow cfg t s j :=
  mem_joinMapRange hr

theorem mkRow_p_len_le (cfg : Config) (t : Bool) (s : Sample) (j : Nat) :
    (mkRow cfg t s j).p_len ≤ cfg.max_p_len := by
  unfold mkRow
  split
  · exact min_le_right _ _
  · exact Nat.zero_le _

/-- Claim C10: every `passage_length` entry is the raw passage length capped
at `max_passage_len`, hence never exceeds `pad_p_len`, and every padded
passage row has length exactly `pad_p_len`; by contrast `question_length`
entries of real slots are the raw, uncapped question length, which exceeds
`pad_q_len` whenever the question is longer than `max_question_len`. -/
theorem claim_C10 (cfg : Config) (samples : List Sample) (pad : Int) (t : Bool)
    (pl ql ptl : List Nat) (pp pq : Nat)
    (h : (one_mini_batchFull cfg samples pad t).map (fun r =>
          (r.1.passage_length, r.1.question_length,
           r.1.passage_token_ids.map List.length, r.2.1, r.2.2))
        = .ok (pl, ql, ptl, pp, pq)) :
    (∀ e ∈ pl, e ≤ pp)
    ∧ (∀ L ∈ ptl, L = pp)
    ∧ pq ≤ cfg.max_q_len
    ∧ (∀ sidx pidx, sidx < samples.length → pidx < maxPassageNum cfg samples →
        (pl.getD (sidx * maxPassageNum cfg samples + pidx) 0
          = (if pidx < (samples.getD sidx default).documents.length
             then min ((samples.getD sidx default).documents.getD pidx
                        default).passage_token_ids.length cfg.max_p_len
             else 0))
        ∧ (ql.getD (sidx * maxPassageNum cfg samples + pidx) 0
          = (if pidx < (samples.getD sidx default).documents.length
             then (samples.getD sidx default).question_token_ids.length
             else 0))
        ∧ (pidx < (samples.getD sidx default).documents.length →
            cfg.max_q_len < (samples.getD sidx default).question_token_ids.length →
            pq < ql.getD (sidx * maxPassageNum cfg samples + pidx) 0)) := by
  cases hfull : one_mini_batchFull cfg samples pad t with
  | error e => rw [hfull] at h; simp [Except.map] at h
  | ok res =>
    obtain ⟨bd, pp0, pq0⟩ := res
    rw [hfull] at h
    simp only [Except.map] at h
    have hinj := Except.ok.inj h
    have hpl : pl = bd.passage_length := (congrArg (fun q => q.1) hinj).symm
    have hql : ql = bd.question_length := (congrArg (fun q => q.2.1) hinj).symm
    have hptl : ptl = bd.passage_token_ids.map List.length :=
      (congrArg (fun q => q.2.2.1) hinj).symm
    have hppv : pp = pp0 := (congrArg (fun q => q.2.2.2.1) hinj).symm
    have hpqv : pq = pq0 := (congrArg (fun q => q.2.2.2.2) hinj).symm
    obtain ⟨mp0, lls, maxAns, bd1, hmp0, hlls, hmaxAns, hdp, hbr⟩ := ombFull_ok_inv hfull
    have hfields : bd.passage_length = bd1.passage_length
        ∧ bd.question_length = bd1.question_length
        ∧ bd.passage_token_ids = bd1.passage_token_ids := by
      rcases hbr with ⟨_, hbd⟩ | ⟨_, lrows, _, hbd⟩ <;> simp [hbd]
    obtain ⟨hfp, hfq, hft⟩ := hfields
    obtain ⟨_, hpp0, hpq0, hbd1⟩ := dynamic_padding_ok_inv hdp
    have hM : min cfg.max_p_num mp0 = maxPassageNum cfg samples := by
      rw [maxPassageNum, pyMax_ok_val hmp0]
    have hbdpl : bd.passage_length
        = (batchRows cfg t (maxPassageNum cfg samples) samples).map Row.p_len := by
      rw [hfp, hbd1, ← hM]
      rfl
    have hbdql : bd.question_length
        = (batchRows cfg t (maxPassageNum cfg samples) samples).map Row.q_len := by
      rw [hfq, hbd1, ← hM]
      rfl
    have hbdpt : bd.passage_token_ids
        = ((batchRows cfg t (maxPassageNum cfg samples) samples).map Row.p_ids).map
            (padTo pad pp0) := by
      rw [hft, hbd1, ← hM]
      rfl
    have hpp0v : pp0 = min cfg.max_p_len (bd.passage_length.foldl max 0) := by
      rw [hpp0, hfp, hbd1]
    have hpq0v : pq0 = min cfg.max_q_len (bd.question_length.foldl max 0) := by
      rw [hpq0, hfq, hbd1]
    refine ⟨?_, ?_, ?_, ?_⟩
    · intro e he
      rw [hpl] at he
      have hle1 : e ≤ bd.passage_length.foldl max 0 := mem_le_foldl_max he 0
      have hle2 : e ≤ cfg.max_p_len := by
        rw [hbdpl] at he
        rcases List.mem_map.mp he with ⟨r, hr, hre⟩
        rcases batchRows_mem hr with ⟨s, _, j, _, hrm⟩
        rw [← hre, hrm]
        exact mkRow_p_len_le cfg t s j
      rw [hppv, hpp0v]
      exact le_min hle2 hle1
    · intro L hL
      rw [hptl, hbdpt] at hL
      rcases List.mem_map.mp hL with ⟨row, hrow, hLe⟩
      rcases List.mem_map.mp hrow with ⟨idsrow, _, hrow2⟩
      rw [← hLe, ← hrow2, padTo_length, hppv]
    · rw [hpqv, hpq0v]
      exact min_le_left _ _
    · intro sidx pidx hs hp
      have hidx : sidx * maxPassageNum cfg samples + pidx
          < (batchRows cfg t (maxPassageNum cfg samples) samples).length := by
        rw [batchRows_length]
        exact idx_lt_mul hs hp
      have hrowv := batchRows_getD cfg t (maxPassageNum cfg samples) hs hp
      have hplv : pl.getD (sidx * maxPassageNum cfg samples + pidx) 0
          = (mkRow cfg t (samples.getD sidx default) pidx).p_len := by
        rw [hpl, hbdpl, getD_map_lt Row.p_len hidx default 0, hrowv]
      have hqlv : ql.getD (sidx * maxPassageNum cfg samples + pidx) 0
          = (mkRow cfg t (samples.getD sidx default) pidx).q_len := by
        rw [hql, hbdql, getD_map_lt Row.q_len hidx default 0, hrowv]
      refine ⟨?_, ?_, ?_⟩
      · rw [hplv]
        unfold mkRow
        split
        · rfl
        · rfl
      · rw [hqlv]
        unfold mkRow
        split
        · rfl
        · rfl
      · intro hreal hlong
        rw [hqlv]
        unfold mkRow
        rw [if_pos hreal]
        dsimp only
        rw [hpqv, hpq0v]
        exact lt_of_le_of_lt (min_le_left _ _) hlong

/-- Witness for C10: `passage_length = min 5 3 = 3 = pad_p_len`, while
`question_length = 4` exceeds `pad_q_len = 2`. -/
theorem claim_C10_witness :
    (([3] : List Nat).getD (0 * maxPassageNum cfgC10 [sC10] + 0) 0
      = (if 0 < ([sC10].getD 0 default).documents.length
         then min (([sC10].getD 0 default).documents.getD 0
                    default).passage_token_ids.length cfgC10.max_p_len
         else 0))
    ∧ (([4] : List Nat).getD (0 * maxPassageNum cfgC10 [sC10] + 0) 0
      = (if 0 < ([sC10].getD 0 default).documents.length
         then ([sC10].getD 0 default).question_token_ids.length
         else 0))
    ∧ (2 : Nat) < ([4] : List Nat).getD (0 * maxPassageNum cfgC10 [sC10] + 0) 0 := by
  have H := claim_C10 cfgC10 [sC10] 0 false [3] [4] [3] 3 2 rfl
  obtain ⟨-, -, -, h4⟩ := H
  obtain ⟨h41, h42, h43⟩ := h4 0 0 (by decide) (by decide)
  exact ⟨h41, h42, h43 (by decide) (by decide)⟩

/-! ## Claim C6: one pass of the batch generator covers the partition -/

/-- Claim C6: for any partition and any permutation of its index range, one
pass of the batch generator yields batches whose `raw_data`, taken together,
are a permutation of the partition (each record exactly once), with every
batch except possibly the last of exactly `batch_size` records and the last
of at most `batch_size`. -/
theorem claim_C6 (cfg : Config) (sets : BRCSets) (set_name : String) (perm : List Nat)
    (bs : Nat) (pad : Int) (data : List Sample) (t : Bool)
    (hsel : selectSet sets set_name = .ok (data, t))
    (hperm : perm.Perm (List.range data.length))
    (hbs : 0 < bs) :
    ∀ rawls : List (List Sample),
      (gen_mini_batches cfg sets set_name perm bs pad).map (List.map BatchData.raw_data)
        = .ok rawls →
      rawls.flatten.Perm data
      ∧ (∀ c ∈ rawls.dropLast, c.length = bs)
      ∧ (∀ c ∈ rawls, c.length ≤ bs) := by
  intro rawls h
  unfold gen_mini_batches at h
  rw [hsel] at h
  dsimp only at h
  rw [if_neg (Nat.pos_iff_ne_zero.mp hbs)] at h
  cases hbat : eMapM
      (fun ch => one_mini_batch cfg (ch.map fun i => data.getD i default) pad t)
      (chunksPos (bs - 1) perm) with
  | error e => rw [hbat] at h; simp [Except.map] at h
  | ok batches =>
    rw [hbat] at h
    simp only [Except.map] at h
    have hrawls : rawls = batches.map BatchData.raw_data := (Except.ok.inj h).symm
    have hfa := eMapM_ok_iff.mp hbat
    have hmapeq : batches.map BatchData.raw_data
        = (chunksPos (bs - 1) perm).map (fun ch => ch.map (fun i => data.getD i default)) := by
      apply forall₂_map_eq
      exact hfa.imp (fun {ch b} hcb => by
        obtain ⟨pp, pq, hfull⟩ := omb_ok_inv hcb
        exact omb_raw_data hfull)
    have hflat : rawls.flatten = perm.map (fun i => data.getD i default) := by
      rw [hrawls, hmapeq, ← List.map_flatten, chunksPos_flatten]
    refine ⟨?_, ?_, ?_⟩
    · rw [hflat]
      have h1 := hperm.map (fun i => data.getD i default)
      rw [map_getD_range] at h1
      exact h1
    · intro c hc
      rw [hrawls, hmapeq, ← List.map_dropLast] at hc
      rcases List.mem_map.mp hc with ⟨ch, hch, hce⟩
      have hchlen := chunksPos_dropLast (bs - 1) perm ch hch
      rw [← hce, List.length_map, hchlen]
      omega
    · intro c hc
      rw [hrawls, hmapeq] at hc
      rcases List.mem_map.mp hc with ⟨ch, hch, hce⟩
      have hchlen := chunksPos_length_le (bs - 1) perm ch hch
      rw [← hce, List.length_map]
      omega

/-- Witness for C6: one pass over the one-record dev partition with batch
size 1 covers it exactly once. -/
theorem claim_C6_witness :
    ([setsC6.dev_set] : List (List Sample)).flatten.Perm setsC6.dev_set
    ∧ setsC6.dev_set.length ≤ 1 := by
  have H := claim_C6 ⟨1, 3, 3⟩ setsC6 "dev" [0] 1 0 setsC6.dev_set false rfl
    (by decide) (by decide) [setsC6.dev_set] rfl
  exact ⟨H.1, H.2.2 setsC6.dev_set (by decide)⟩

/-! ## Claim C1: the training-time answer filter -/

theorem keepLab_eq_false {p : Int × Int} (h : p.1 = -1 ∨ p.2 = -1) :
    keepLab p = false := by
  unfold keepLab
  rcases h with h | h <;> simp [h]

theorem keepLab_eq_true {p : Int × Int} (h : ¬(p.1 = -1 ∨ p.2 = -1)) :
    keepLab p = true := by
  unfold keepLab
  push_neg at h
  simp [h.1, h.2]

theorem drop_eq_getD_cons {α : Type} {l : List α} {k : Nat} (h : k < l.length) (d : α) :
    l.drop k = l.getD k d :: l.drop (k + 1) := by
  rw [List.getD_eq_getElem?_getD, List.getElem?_eq_getElem h]
  simp only [Option.getD_some]
  exact (List.getElem_cons_drop l k h).symm

theorem filterLoop_enumFrom (ds ss : List Int) (fs : List String) :
    ∀ (labs : List (Int × Int)) (k : Nat),
      k + labs.length ≤ ds.length → k + labs.length ≤ ss.length →
      k + labs.length ≤ fs.length →
      filterLoop ds ss fs (List.enumFrom k labs) =
        .ok ((((ds.drop k).zip labs).filter (fun q => keepLab q.2)).map Prod.fst,
             (((ss.drop k).zip labs).filter (fun q => keepLab q.2)).map Prod.fst,
             labs.filter keepLab,
             (((fs.drop k).zip labs).filter (fun q => keepLab q.2)).map Prod.fst) := by
  intro labs
  induction labs with
  | nil => intro k _ _ _; simp [filterLoop]
  | cons lab rest ih =>
    intro k hd hs hf
    have hkd : k < ds.length := by simp only [List.length_cons] at hd; omega
    have hks : k < ss.length := by simp only [List.length_cons] at hs; omega
    have hkf : k < fs.length := by simp only [List.length_cons] at hf; omega
    have hd2 : (k + 1) + rest.length ≤ ds.length := by
      simp only [List.length_cons] at hd; omega
    have hs2 : (k + 1) + rest.length ≤ ss.length := by
      simp only [List.length_cons] at hs; omega
    have hf2 : (k + 1) + rest.length ≤ fs.length := by
      simp only [List.length_cons] at hf; omega
    rw [List.enumFrom_cons]
    rw [drop_eq_getD_cons hkd 0, drop_eq_getD_cons hks 0, drop_eq_getD_cons hkf ""]
    simp only [List.zip_cons_cons]
    by_cases hcond : lab.1 = -1 ∨ lab.2 = -1
    · have hkl : keepLab lab = false := keepLab_eq_false hcond
      simp only [filterLoop, if_pos hcond]
      rw [ih (k + 1) hd2 hs2 hf2]
      rw [List.filter_cons_of_neg (by simp [hkl]),
          List.filter_cons_of_neg (by simp [hkl]),
          List.filter_cons_of_neg (by simp [hkl]),
          List.filter_cons_of_neg (by simp [hkl])]
    · have hkl : keepLab lab = true := keepLab_eq_true hcond
      simp only [filterLoop, if_neg hcond]
      rw [pyGet_of_lt hkd 0]
      dsimp only
      rw [pyGet_of_lt hks 0]
      dsimp only
      rw [pyGet_of_lt hkf ""]
      dsimp only
      rw [ih (k + 1) hd2 hs2 hf2]
      dsimp only
      rw [List.filter_cons_of_pos (by simp [hkl]),
          List.filter_cons_of_pos (by simp [hkl]),
          List.filter_cons_of_pos (by simp [hkl]),
          List.filter_cons_of_pos (by simp [hkl])]
      simp

theorem zip_filter_snd_length {α : Type} :
    ∀ (labs : List (Int × Int)) (xs : List α), labs.length ≤ xs.length →
      ((xs.zip labs).filter (fun q => keepLab q.2)).length
        = (labs.filter keepLab).length := by
  intro labs
  induction labs with
  | nil => intro xs _; simp
  | cons lab rest ih =>
    intro xs hlen
    cases xs with
    | nil => simp at hlen
    | cons x xs2 =>
      simp only [List.zip_cons_cons]
      have hlen2 : rest.length ≤ xs2.length := by
        simp only [List.length_cons] at hlen; omega
      cases hk : keepLab lab with
      | false =>
        rw [List.filter_cons_of_neg (by simp [hk]), List.filter_cons_of_neg (by simp [hk])]
        exact ih xs2 hlen2
      | true =>
        rw [List.filter_cons_of_pos (by simp [hk]), List.filter_cons_of_pos (by simp [hk])]
        simp [ih xs2 hlen2]

/-- Claim C1 (amended): for a training record passing the empty-question and
empty-fake-answer checks, with the four sequences parallel, the loader
removes exactly those indices whose answer label has `-1` as its first or
second component (not only the exact pair `(-1, -1)`), preserving relative
order, and accepts the record with the four filtered sequences when at least
one entry remains (rejecting it as `empty_fake_answer` otherwise). -/
theorem claim_C1 (s : Sample) (labs : List (Int × Int))
    (hq : s.segmented_question ≠ []) (hd : s.documents ≠ []) (hf : s.fake_answers ≠ [])
    (hl : s.answer_labels = some labs)
    (h1 : labs.length = s.best_match_doc_ids.length)
    (h2 : labs.length = s.best_match_scores.length)
    (h3 : labs.length = s.fake_answers.length) :
    (labs.filter keepLab ≠ [] →
      cleanTrainSample s = .ok ({ s with
        best_match_doc_ids :=
          ((s.best_match_doc_ids.zip labs).filter (fun q => keepLab q.2)).map Prod.fst
        best_match_scores :=
          ((s.best_match_scores.zip labs).filter (fun q => keepLab q.2)).map Prod.fst
        answer_labels := some (labs.filter keepLab)
        fake_answers :=
          ((s.fake_answers.zip labs).filter (fun q => keepLab q.2)).map Prod.fst }, false))
    ∧ (labs.filter keepLab = [] →
      cleanTrainSample s = .ok ({ s with error_info := some "empty_fake_answer" }, true)) := by
  have hc1 : ¬(s.segmented_question.length = 0 ∨ s.documents.length = 0) := by
    intro hcon
    rcases hcon with hcon | hcon
    · exact hq (List.length_eq_zero.mp hcon)
    · exact hd (List.length_eq_zero.mp hcon)
  have hc2 : ¬(s.fake_answers.length = 0) := fun hcon => hf (List.length_eq_zero.mp hcon)
  have hfl := filterLoop_enumFrom s.best_match_doc_ids s.best_match_scores s.fake_answers
    labs 0 (by omega) (by omega) (by omega)
  rw [List.drop_zero, List.drop_zero, List.drop_zero] at hfl
  have hrdslen : (((s.best_match_doc_ids.zip labs).filter
      (fun q => keepLab q.2)).map Prod.fst).length = (labs.filter keepLab).length := by
    rw [List.length_map]
    exact zip_filter_snd_length labs s.best_match_doc_ids (le_of_eq h1)
  unfold cleanTrainSample
  rw [if_neg hc1, if_neg hc2, hl]
  dsimp only [pyField]
  rw [← List.enum_eq_enumFrom] at hfl
  rw [hfl]
  dsimp only
  constructor
  · intro hne
    rw [if_neg (by rw [hrdslen]; exact fun hz => hne (List.length_eq_zero.mp hz))]
  · intro heq
    rw [if_pos (by rw [hrdslen, heq]; rfl)]

/-- Counterexample to claim C1 as stated: the claim's filter (remove only
indices equal to the pair `(-1, -1)`) would keep both labels of `sC1`, but
the training-mode load accepts the record with only `(2, 3)` left, because
the code drops any index whose label has `-1` in either component. -/
theorem claim_C1_cex :
    (load_dataset (some "log") (initSink (some "log")) [sC1] true).map
        (fun r => r.1.map (fun x => x.answer_labels)) = .ok [some [(2, 3)]]
    ∧ [((-1 : Int), (5 : Int)), (2, 3)].filter
        (fun p => decide (p ≠ ((-1 : Int), (-1 : Int)))) = [(-1, 5), (2, 3)] :=
  ⟨rfl, by decide⟩

/-- Witness for the amended C1 at `sC1`: index 0 with label `(-1, 5)` is
removed, index 1 with `(2, 3)` survives, and the record is accepted. -/
theorem claim_C1_witness :
    cleanTrainSample sC1 = .ok ({ sC1 with
      best_match_doc_ids :=
        ((sC1.best_match_doc_ids.zip [((-1 : Int), (5 : Int)), (2, 3)]).filter
          (fun q => keepLab q.2)).map Prod.fst
      best_match_scores :=
        ((sC1.best_match_scores.zip [((-1 : Int), (5 : Int)), (2, 3)]).filter
          (fun q => keepLab q.2)).map Prod.fst
      answer_labels := some ([((-1 : Int), (5 : Int)), (2, 3)].filter keepLab)
      fake_answers :=
        ((sC1.fake_answers.zip [((-1 : Int), (5 : Int)), (2, 3)]).filter
          (fun q => keepLab q.2)).map Prod.fst }, false) :=
  (claim_C1 sC1 [(-1, 5), (2, 3)] (by decide) (by decide) (by decide) rfl rfl rfl rfl).1
    (by decide)

/-! ## Claims C3 and C8: sink lifecycle and configuration errors -/

theorem cleanTrainSample_ok_of_wf {s : Sample} (h : WFSample s) :
    ∃ r, cleanTrainSample s = .ok r := by
  obtain ⟨labs, hl, h1, h2, h3⟩ := h
  unfold cleanTrainSample
  by_cases hc1 : s.segmented_question.length = 0 ∨ s.documents.length = 0
  · rw [if_pos hc1]
    exact ⟨_, rfl⟩
  · rw [if_neg hc1]
    by_cases hc2 : s.fake_answers.length = 0
    · rw [if_pos hc2]
      exact ⟨_, rfl⟩
    · rw [if_neg hc2, hl]
      dsimp only [pyField]
      have hfl := filterLoop_enumFrom s.best_match_doc_ids s.best_match_scores
        s.fake_answers labs 0 (by omega) (by omega) (by omega)
      rw [← List.enum_eq_enumFrom] at hfl
      rw [hfl]
      dsimp only
      by_cases hz : ((((s.best_match_doc_ids.drop 0).zip labs).filter
          (fun q => keepLab q.2)).map Prod.fst).length = 0
      · rw [if_pos hz]
        exact ⟨_, rfl⟩
      · rw [if_neg hz]
        exact ⟨_, rfl⟩

theorem loadLoop_ok (p : String) :
    ∀ (samples : List Sample) (st : SinkState) (acc : List Sample),
      st.hasHandle = true → st.isOpen = true → (∀ s ∈ samples, WFSample s) →
      loadLoop (some p) true acc st samples
        = .ok (acc ++ goodOf samples,
               { hasHandle := true, isOpen := true
                 contents := st.contents ++ badOf samples }) := by
  intro samples
  induction samples with
  | nil =>
    intro st acc hh ho _
    obtain ⟨h1, h2, c⟩ := st
    simp only at hh ho
    subst hh
    subst ho
    simp [loadLoop, goodOf, badOf]
  | cons s rest ih =>
    intro st acc hh ho hwf
    obtain ⟨⟨s2, bad⟩, hclean⟩ := cleanTrainSample_ok_of_wf (hwf s (by simp))
    simp only [loadLoop, if_pos]
    rw [if_neg (by simp : ¬(some p = none))]
    rw [hclean]
    dsimp only
    have hwrest : ∀ x ∈ rest, WFSample x := fun x hx => hwf x (by simp [hx])
    cases bad with
    | false =>
      rw [if_neg (by simp)]
      rw [ih st (acc ++ [s2]) hh ho hwrest]
      have hgood : goodOf (s :: rest) = s2 :: goodOf rest := by
        unfold goodOf
        rw [List.filterMap_cons, hclean]
      have hbad : badOf (s :: rest) = badOf rest := by
        unfold badOf
        rw [List.filterMap_cons, hclean]
      rw [hgood, hbad]
      simp
    | true =>
      rw [if_pos rfl]
      have hwr : sinkWrite st s2 = .ok { st with contents := st.contents ++ [s2] } := by
        unfold sinkWrite
        rw [if_neg (by simp [hh]), if_neg (by simp [ho])]
      rw [hwr]
      dsimp only
      have hfl2 : sinkFlush { st with contents := st.contents ++ [s2] }
          = .ok { st with contents := st.contents ++ [s2] } := by
        unfold sinkFlush
        rw [if_neg (by simp [hh]), if_neg (by simp [ho])]
      rw [hfl2]
      dsimp only
      rw [ih { st with contents := st.contents ++ [s2] } acc (by simp [hh]) (by simp [ho])
        hwrest]
      have hgood : goodOf (s :: rest) = goodOf rest := by
        unfold goodOf
        rw [List.filterMap_cons, hclean]
      have hbad : badOf (s :: rest) = s2 :: badOf rest := by
        unfold badOf
        rw [List.filterMap_cons, hclean]
      rw [hgood, hbad]
      simp

/-- Claim C8 (amended): a training-mode load without a configured sink path
fails immediately with the assertion error as soon as the source has one
record; with a sink path configured and the sink still open (as it is after
construction, before any earlier load call has closed it), the load returns
exactly the accepted records, routing every disqualified record to the sink
without raising. -/
theorem claim_C8 :
    (∀ (st : SinkState) (s : Sample) (rest : List Sample),
      load_dataset none st (s :: rest) true
        = .error "AssertionError: badcase_sample_log_file is None")
    ∧ (∀ (p : String) (st : SinkState) (samples : List Sample),
      p ≠ "" → st.hasHandle = true → st.isOpen = true →
      (∀ s ∈ samples, WFSample s) →
      load_dataset (some p) st samples true
        = .ok (goodOf samples,
               { hasHandle := true, isOpen := false
                 contents := st.contents ++ badOf samples })) := by
  constructor
  · intro st s rest
    unfold load_dataset loadLoop
    rw [if_pos rfl, if_pos rfl]
  · intro p st samples hp hh ho hwf
    unfold load_dataset
    rw [loadLoop_ok p samples st [] hh ho hwf]
    dsimp only
    rw [if_pos (show truthyPath (some p) = true by simp [truthyPath, hp])]
    rfl

/-- Counterexample to claim C8 as stated: with a sink configured at
construction, a first training-mode load succeeds, but the second
training-mode load of the same disqualified record raises on the sink that
the first call closed — so "with a sink configured, the load never raises
for disqualified records" does not hold of every load. -/
theorem claim_C8_cex :
    (load_dataset (some "log") (initSink (some "log")) [sC8] true).bind
        (fun r => load_dataset (some "log") r.2 [sC8] true)
      = .error "ValueError: I/O operation on closed file" := rfl

/-- Witness for the amended C8: the assertion fires without a sink, and the
first load after construction accepts the well-formed record. -/
theorem claim_C8_witness :
    load_dataset none ⟨false, false, []⟩ [sC8w] true
        = .error "AssertionError: badcase_sample_log_file is None"
    ∧ load_dataset (some "log") (initSink (some "log")) [sC8w] true
        = .ok (goodOf [sC8w],
               { hasHandle := true, isOpen := false
                 contents := (initSink (some "log")).contents ++ badOf [sC8w] }) := by
  refine ⟨claim_C8.1 ⟨false, false, []⟩ sC8w [], ?_⟩
  exact claim_C8.2 "log" (initSink (some "log")) [sC8w] (by decide) rfl rfl
    (fun s hs => by
      rw [List.mem_singleton] at hs
      subst hs
      exact ⟨[(0, 1)], rfl, by decide, by decide, by decide⟩)

/-- Claim C3 (amended): the sink, when configured with a truthy path, is
opened once at dataset construction, not at the start of each load call;
every load call closes it at its end even when nothing was written, and a
later training-mode load that must write a rejected record to the
already-closed sink raises instead of reopening it. -/
theorem claim_C3 :
    (∀ p : String, p ≠ "" →
      (initSink (some p)).hasHandle = true ∧ (initSink (some p)).isOpen = true
        ∧ (initSink (some p)).contents = [])
    ∧ (∀ (p : String) (st : SinkState) (samples : List Sample) (train : Bool)
        (ds : List Sample) (st2 : SinkState),
        p ≠ "" → load_dataset (some p) st samples train = .ok (ds, st2) →
        st2.isOpen = false)
    ∧ (∀ (p : String) (st : SinkState) (s : Sample) (rest : List Sample),
        p ≠ "" → st.hasHandle = true → st.isOpen = false →
        (cleanTrainSample s).map (fun r => r.2) = .ok true →
        load_dataset (some p) st (s :: rest) true
          = .error "ValueError: I/O operation on closed file") := by
  refine ⟨?_, ?_, ?_⟩
  · intro p hp
    unfold initSink
    rw [if_pos (show truthyPath (some p) = true by simp [truthyPath, hp])]
    exact ⟨rfl, rfl, rfl⟩
  · intro p st samples train ds st2 hp h
    unfold load_dataset at h
    cases hll : loadLoop (some p) train [] st samples with
    | error e => rw [hll] at h; simp at h
    | ok r =>
      obtain ⟨ds0, st0⟩ := r
      rw [hll] at h
      dsimp only at h
      rw [if_pos (show truthyPath (some p) = true by simp [truthyPath, hp])] at h
      have hinj := Except.ok.inj h
      have : sinkClose st0 = st2 := congrArg Prod.snd hinj
      rw [← this]
      rfl
  · intro p st s rest hp hh ho hclean
    cases hc : cleanTrainSample s with
    | error e => rw [hc] at hclean; simp [Except.map] at hclean
    | ok r =>
      obtain ⟨s2, bad⟩ := r
      rw [hc] at hclean
      simp only [Except.map] at hclean
      have hbad : bad = true := Except.ok.inj hclean
      subst hbad
      unfold load_dataset loadLoop
      rw [if_pos rfl, if_neg (by simp : ¬(some p = none)), hc]
      dsimp only
      rw [if_pos rfl]
      have hwr : sinkWrite st s2 = .error "ValueError: I/O operation on closed file" := by
        unfold sinkWrite
        rw [if_neg (by simp [hh]), if_pos (by simp [ho])]
      rw [hwr]

/-- Counterexample to claim C3 as stated: one load call on the
construction-opened sink ends with the sink closed after writing one
rejected record, and the next load call finds it closed — it is not
"opened at the start of each load call", so the second call's write
raises. -/
theorem claim_C3_cex :
    (load_dataset (some "log") (initSink (some "log")) [sC3] true).map
        (fun r => (r.1, r.2.isOpen, r.2.contents.length)) = .ok ([], false, 1)
    ∧ (load_dataset (some "log") (initSink (some "log")) [sC3] true).bind
        (fun r => load_dataset (some "log") r.2 [sC3] true)
      = .error "ValueError: I/O operation on closed file" :=
  ⟨rfl, rfl⟩

/-- Witness for the amended C3 at concrete states: construction opens the
sink, an empty dev-style load still closes it, and a later training load
of a rejected record on the closed sink raises. -/
theorem claim_C3_witness :
    ((initSink (some "log")).hasHandle = true ∧ (initSink (some "log")).isOpen = true
      ∧ (initSink (some "log")).contents = [])
    ∧ (⟨true, false, []⟩ : SinkState).isOpen = false
    ∧ load_dataset (some "log") ⟨true, false, []⟩ [sC3] true
        = .error "ValueError: I/O operation on closed file" := by
  refine ⟨claim_C3.1 "log" (by decide), ?_, ?_⟩
  · exact claim_C3.2.1 "log" (initSink (some "log")) [] false [] ⟨true, false, []⟩
      (by decide) rfl
  · exact claim_C3.2.2 "log" ⟨true, false, []⟩ sC3 [] (by decide) rfl rfl rfl
